import Mathlib

/-!
Verification development for the structural source-patching engine of the
repository (the `strategy-ast` tools: `edit_tools.py`, `param_tools.py`,
`attr_tools.py`).  The Python code is shallowly embedded: the fragment of the
Python `ast` node language the tools inspect is modelled as inductive types,
the pure string manipulation (`str.splitlines(keepends=True)`, `"".join`,
`str.replace`, `str.rstrip("\n")`, `textwrap.dedent`) is implemented over
Lean strings, raising an exception is modelled by `Except String`, and
`ast.parse` is a parameter (`ParseFn`): concrete runs supply a finite parse
table whose entries are hand-translations of real Python parses.
-/

namespace PySrc

/-- Payload of a Python `ast.Constant`.  Floats are carried by their decimal
source spelling; no modelled code path computes with numeric values. -/
inductive PLit where
  | int (n : Int)
  | float (dec : String)
  | str (s : String)
  | bool (b : Bool)
  | noneV
deriving DecidableEq

/-- The expression fragment the tools inspect: `ast.Constant`, `ast.Name`,
`ast.Attribute`, `ast.Call` (`keywords` entries carry `ast.keyword.arg`,
which is `None` for `**kwargs` unpacking), `ast.UnaryOp` (with the operator
class name, e.g. `"USub"`), and a catch-all for every other node kind. -/
inductive PExpr where
  | const (v : PLit)
  | name (id : String)
  | attr (base : PExpr) (attrName : String)
  | call (func : PExpr) (args : List PExpr) (keywords : List (Option String × PExpr))
  | unaryOp (op : String) (operand : PExpr)
  | other (tag : String) (children : List PExpr)

/-- The statement fragment the tools inspect.  Statements with nested bodies
(`ClassDef`, `FunctionDef`, `AsyncFunctionDef`, and the catch-all for other
compound statements) carry their children as `(lineno, end_lineno, stmt)`
triples, mirroring the `lineno`/`end_lineno` attributes of parsed nodes. -/
inductive PStmt where
  | assign (targets : List PExpr) (value : PExpr)
  | annAssign (target : PExpr) (value : Option PExpr)
  | exprStmt (value : PExpr)
  | imp
  | impFrom
  | classDef (name : String) (bases : List PExpr) (body : List (Nat × Nat × PStmt))
  | funcDef (name : String) (body : List (Nat × Nat × PStmt))
  | asyncFuncDef (name : String) (body : List (Nat × Nat × PStmt))
  | otherStmt (body : List (Nat × Nat × PStmt))

/-- A parsed module: `ast.Module.body` with per-statement line spans. -/
structure PModule where
  body : List (Nat × Nat × PStmt)

/-- `ast.parse` is not re-implemented; computations take a parse function and
concrete runs supply a finite table of hand-translated parses. -/
def ParseFn : Type := String → Except String PModule

/-- Serialization of constants for `ast.dump` comparison purposes. -/
def dumpLit : PLit → String
  | .int n => "int(" ++ toString n ++ ")"
  | .float d => "float(" ++ d ++ ")"
  | .str s => "str(" ++ s ++ ")"
  | .bool b => "bool(" ++ toString b ++ ")"
  | .noneV => "None"

mutual
/-- Model of `ast.dump(node, include_attributes=False)`.  The exact textual
format differs from CPython; the code only ever compares dumps of two nodes
for equality, and this serialization distinguishes the modelled nodes the
same way CPython dumps do. -/
def pdump : PExpr → String
  | .const v => "Constant(value=" ++ dumpLit v ++ ")"
  | .name i => "Name(id=" ++ i ++ ")"
  | .attr b a => "Attribute(value=" ++ pdump b ++ ", attr=" ++ a ++ ")"
  | .call f as ks =>
      "Call(func=" ++ pdump f ++ ", args=[" ++ pdumpList as ++ "], keywords=[" ++ pdumpKws ks ++ "])"
  | .unaryOp op x => "UnaryOp(op=" ++ op ++ "(), operand=" ++ pdump x ++ ")"
  | .other t cs => t ++ "(" ++ pdumpList cs ++ ")"
  termination_by structural e => e

def pdumpList : List PExpr → String
  | [] => ""
  | [x] => pdump x
  | x :: y :: xs => pdump x ++ ", " ++ pdumpList (y :: xs)
  termination_by structural l => l

def pdumpKws : List (Option String × PExpr) → String
  | [] => ""
  | (nm, v) :: xs =>
      "keyword(" ++ (match nm with | some n => "arg=" ++ n ++ ", " | none => "") ++
        "value=" ++ pdump v ++ ")" ++ (if xs.isEmpty then "" else ", ") ++ pdumpKws xs
  termination_by structural l => l
end

mutual
/-- The statements nested below one statement, for the `ast.walk` model. -/
def walkStmt : PStmt → List (Nat × Nat × PStmt)
  | .classDef _ _ body => walkBody body
  | .funcDef _ body => walkBody body
  | .asyncFuncDef _ body => walkBody body
  | .otherStmt body => walkBody body
  | _ => []
  termination_by structural s => s

/-- `ast.walk` restricted to statements: every statement of the list and,
recursively, every statement nested in bodies.  (Assignments cannot occur
inside Python expressions, so walking statements is enough for the
assignment scans.  `ast.walk` is breadth-first while this walk is
depth-first; the only consumer sorts the collected entries by a
`(line, name)` key, and the two orders agree up to that stable sort.) -/
def walkBody : List (Nat × Nat × PStmt) → List (Nat × Nat × PStmt)
  | [] => []
  | (l, e, s) :: xs => (l, e, s) :: (walkStmt s ++ walkBody xs)
  termination_by structural l => l
end

/-- All statements of a module, in walk order. -/
def walkModule (m : PModule) : List (Nat × Nat × PStmt) := walkBody m.body

/-! ### String utilities used by the tools -/

/-- Auxiliary scanner for `str.splitlines(keepends=True)`. -/
def splitKeepAux : List Char → List Char → List String
  | [], acc => if acc.isEmpty then [] else [String.mk acc.reverse]
  | '\r' :: '\n' :: rest, acc => String.mk (acc.reverse ++ ['\r', '\n']) :: splitKeepAux rest []
  | '\r' :: rest, acc => String.mk (acc.reverse ++ ['\r']) :: splitKeepAux rest []
  | '\n' :: rest, acc => String.mk (acc.reverse ++ ['\n']) :: splitKeepAux rest []
  | c :: rest, acc => splitKeepAux rest (c :: acc)

/-- `str.splitlines(keepends=True)` for texts whose line boundaries are
`\n`, `\r`, `\r\n` (the exotic Unicode boundaries Python also splits on do
not occur in the modelled inputs). -/
def splitlinesKeepends (s : String) : List String := splitKeepAux s.data []

/-- `"".join(lines)`. -/
def joinLines : List String → String
  | [] => ""
  | s :: rest => s ++ joinLines rest

/-- Python `lines[start:end]` for `0 ≤ start ≤ end` (clamped at the length,
exactly as Python slicing clamps). -/
def sliceList (lines : List String) (start stop : Nat) : List String :=
  (lines.drop start).take (stop - start)

/-- Python `lines[start:end] = repl` for `0 ≤ start ≤ end`. -/
def spliceList (lines : List String) (start stop : Nat) (repl : List String) : List String :=
  lines.take start ++ repl ++ lines.drop stop

/-- Python `pat in s` (substring containment) — helper on char lists. -/
def listStarts : List Char → List Char → Bool
  | _, [] => true
  | [], _ :: _ => false
  | a :: as, b :: bs => a == b && listStarts as bs

def listContainsSub : List Char → List Char → Bool
  | [], pat => pat.isEmpty
  | c :: rest, pat => listStarts (c :: rest) pat || listContainsSub rest pat

/-- Python `pat in s` on strings. -/
def strContainsSub (s pat : String) : Bool := listContainsSub s.data pat.data

/-- Python `str.split("\n")` — helper. -/
def splitNlAux : List Char → List Char → List String
  | [], acc => [String.mk acc.reverse]
  | '\n' :: rest, acc => String.mk acc.reverse :: splitNlAux rest []
  | c :: rest, acc => splitNlAux rest (c :: acc)

/-- Python `text.split("\n")`. -/
def splitNl (s : String) : List String := splitNlAux s.data []

/-- Python `"\n".join(lines)`. -/
def joinNl : List String → String
  | [] => ""
  | [x] => x
  | x :: y :: rest => x ++ "\n" ++ joinNl (y :: rest)

/-- Python `content.endswith("\n")`. -/
def endsWithNl (s : String) : Bool := s.data.getLast? == some '\n'

/-- Lexicographic `≤` on char lists by code point — Python string `<=`,
used only as a sort key comparison. -/
def charListLe : List Char → List Char → Bool
  | [], _ => true
  | _ :: _, [] => false
  | a :: as, b :: bs => if a == b then charListLe as bs else decide (a < b)

/-- Python `a <= b` on strings. -/
def strLe (a b : String) : Bool := charListLe a.data b.data

/-- Python whitespace for `str.strip()`. -/
def isPySpace (c : Char) : Bool :=
  c == ' ' || c == '\t' || c == '\n' || c == '\r' || c == '\x0b' || c == '\x0c'

/-- Python `str.strip()` (no argument): strip whitespace from both ends. -/
def pyStrip (s : String) : String :=
  String.mk (((s.data.dropWhile isPySpace).reverse.dropWhile isPySpace).reverse)

/-! `textwrap.dedent`, following the CPython implementation: whitespace-only
lines are cleared, the margin is the longest common prefix of the leading
whitespace of the remaining nonempty lines, and the margin is removed from
the start of every line that begins with it. -/

def isWsChar (c : Char) : Bool := c == ' ' || c == '\t'

/-- Clearing of lines matching `^[ \t]+$`. -/
def wsOnlyCleared (l : String) : String :=
  if l ≠ "" && l.data.all isWsChar then "" else l

/-- The captured group of `(^[ \t]*)(?:[^ \t\n])` for one (newline-free) line:
the leading whitespace, recorded only when a non-whitespace char follows. -/
def lineIndent (l : String) : Option String :=
  match l.data.dropWhile isWsChar with
  | [] => none
  | _ :: _ => some (String.mk (l.data.takeWhile isWsChar))

def lcpChars : List Char → List Char → List Char
  | a :: as, b :: bs => if a == b then a :: lcpChars as bs else []
  | _, _ => []

/-- The common-margin fold of CPython `textwrap.dedent` (each step keeps the
longest common prefix of the margin so far and the next indent). -/
def dedentMargin : List String → String
  | [] => ""
  | i :: rest => rest.foldl (fun m j => String.mk (lcpChars m.data j.data)) i

/-- `textwrap.dedent`. -/
def dedent (text : String) : String :=
  let lines := (splitNl text).map wsOnlyCleared
  let m := dedentMargin (lines.filterMap lineIndent)
  let stripped :=
    if m = "" then lines
    else lines.map (fun l =>
      if listStarts l.data m.data then String.mk (l.data.drop m.data.length) else l)
  joinNl stripped

end PySrc

namespace EditTools

open PySrc

/-! Embedding of `src/server/utils/strategy-ast/edit_tools.py`. -/

/-- `_is_param_call`. -/
def isParamCall : PExpr → Bool
  | .call f _ _ =>
      (match f with
       | .name i => strContainsSub i "Parameter"
       | .attr _ a => strContainsSub a "Parameter"
       | _ => false)
  | _ => false

/-- `_safe_literal` (`ast.literal_eval` guarded by `try/except`): evaluated
for plain constants and unary `+`/`-` on numeric constants; every other node
(containers included — they are not modelled) yields `None`.  The resulting
values are only echoed into the index, never read by any modelled code. -/
def safeLiteral : PExpr → Option PLit
  | .const v => some v
  | .unaryOp "USub" (.const (.int n)) => some (.int (-n))
  | .unaryOp "USub" (.const (.float d)) => some (.float ("-" ++ d))
  | .unaryOp "UAdd" (.const (.int n)) => some (.int n)
  | .unaryOp "UAdd" (.const (.float d)) => some (.float d)
  | _ => none

/-- `_get_param_target_name`. -/
def getParamTargetName : PExpr → Option String
  | .name i => some i
  | _ => none

/-- The result of `_get_param_assignment`: `(name, call, lineno, end_lineno)`
with the call kept as the full expression node. -/
def getParamAssignment : Nat × Nat × PStmt → Option (String × PExpr × Nat × Nat)
  | (lineno, endLineno, .assign targets value) =>
      if isParamCall value then
        -- truthy filter: `[t for t in targets if t]` drops None and ""
        match (targets.filterMap getParamTargetName).filter (fun t => t ≠ "") with
        | [t] => some (t, value, lineno, endLineno)
        | _ => none
      else none
  | (lineno, endLineno, .annAssign target (some value)) =>
      if isParamCall value then
        match getParamTargetName target with
        | some t => if t = "" then none else some (t, value, lineno, endLineno)
        | none => none
      else none
  | _ => none

/-- One entry produced by `_extract_assignments`. -/
structure ParamInfo where
  name : String
  type : String
  line : Nat
  endLine : Nat
  args : List (Option PLit)
  default : Option PLit
  space : Option PLit
  optimize : Option PLit
  before : String
deriving DecidableEq

/-- `fn.id if isinstance(fn, ast.Name) else fn.attr if isinstance(fn, ast.Attribute) else ""`. -/
def funcName : PExpr → String
  | .name i => i
  | .attr _ a => a
  | _ => ""

/-- The `kw` dict of `_extract_assignments` as last-wins lookup over the
named keywords (`isinstance(k, ast.keyword) and k.arg`; an empty-string arg
is falsy and dropped like `None`). -/
def kwGet (kws : List (Option String × PExpr)) (key : String) : Option PExpr :=
  ((kws.filterMap (fun kv => kv.1.bind (fun n => if n = "" then none else some (n, kv.2))))
    |>.filter (fun kv => kv.1 == key)).getLast? |>.map Prod.snd

/-- Callee and arguments of a call node (the code only reaches this for
`ast.Call` values; the defaults for other nodes are never used). -/
def callArgs : PExpr → List PExpr
  | .call _ as _ => as
  | _ => []

def callKeywords : PExpr → List (Option String × PExpr)
  | .call _ _ ks => ks
  | _ => []

def callFunc : PExpr → PExpr
  | .call f _ _ => f
  | e => e

/-- Sort key of `_extract_assignments`: `(int(x.get("line") or 0), x.get("name") or "")`.
Python `list.sort` is stable; a stable sort with the same key comparison
produces the same output, so the sort itself is modelled by insertion sort
(which is stable). -/
def paramLe (x y : ParamInfo) : Bool :=
  x.line < y.line || (x.line == y.line && strLe x.name y.name)

/-- `_extract_assignments` (shared verbatim between `edit_tools.py` and
`param_tools.py`). -/
def extractAssignments (tree : PModule) (source : String) : List ParamInfo :=
  let out := (walkModule tree).filterMap (fun n =>
    match getParamAssignment n with
    | none => none
    | some (name, call, lineno, endLineno) =>
      let fnName := funcName (callFunc call)
      let defaultVal := (kwGet (callKeywords call) "default").bind safeLiteral
      let spaceVal := (kwGet (callKeywords call) "space").bind safeLiteral
      let optimizeVal := (kwGet (callKeywords call) "optimize").bind safeLiteral
      let args := callArgs call
      let a0 := (args.take 1).head?.bind safeLiteral
      let a1 := (args.drop 1).head?.bind safeLiteral
      let lines := splitlinesKeepends source
      let seg := joinLines (sliceList lines (lineno - 1) endLineno)
      some { name := name, type := fnName, line := lineno, endLine := endLineno,
             args := [a0, a1], default := defaultVal, space := spaceVal,
             optimize := optimizeVal, before := seg })
  out.insertionSort (fun x y => paramLe x y = true)

/-- `_base_name`. -/
def baseName : PExpr → Option String
  | .name i => some i
  | .attr _ a => some a
  | _ => none

structure FnInfo where
  name : String
  line : Nat
  endLine : Nat
deriving DecidableEq

structure ClassInfo where
  name : String
  line : Nat
  endLine : Nat
  bases : List String
  methods : List FnInfo
deriving DecidableEq

/-- `_index_classes` (top-level `ClassDef`s; methods are the direct
`FunctionDef`/`AsyncFunctionDef` children). -/
def indexClasses (tree : PModule) : List ClassInfo :=
  tree.body.filterMap (fun n =>
    match n with
    | (lineno, endLineno, .classDef name bases body) =>
        some { name := name, line := lineno, endLine := endLineno,
               bases := (bases.filterMap baseName).filter (fun b => b ≠ ""),
               methods := body.filterMap (fun c =>
                 match c with
                 | (ml, me, .funcDef mn _) => some { name := mn, line := ml, endLine := me }
                 | (ml, me, .asyncFuncDef mn _) => some { name := mn, line := ml, endLine := me }
                 | _ => none) }
    | _ => none)

/-- `_index_functions` (top-level `FunctionDef`/`AsyncFunctionDef`s). -/
def indexFunctions (tree : PModule) : List FnInfo :=
  tree.body.filterMap (fun n =>
    match n with
    | (lineno, endLineno, .funcDef name _) => some { name := name, line := lineno, endLine := endLineno }
    | (lineno, endLineno, .asyncFuncDef name _) => some { name := name, line := lineno, endLine := endLineno }
    | _ => none)

structure SourceIndex where
  classes : List ClassInfo
  functions : List FnInfo
  params : List ParamInfo
deriving DecidableEq

/-- `_build_index`. -/
def buildIndex (tree : PModule) (source : String) : SourceIndex :=
  { classes := indexClasses tree, functions := indexFunctions tree,
    params := extractAssignments tree source }

/-- `_find_strategy_class` of `edit_tools.py`: first class whose bases
contain `"IStrategy"`, else the first class, else `None`. -/
def findStrategyClass (index : SourceIndex) : Option ClassInfo :=
  findStrategyClassAux index.classes index.classes
where
  findStrategyClassAux : List ClassInfo → List ClassInfo → Option ClassInfo
    | [], all => all.head?
    | c :: rest, all => if c.bases.contains "IStrategy" then some c else findStrategyClassAux rest all

/-- `_find_class`. -/
def findClass (index : SourceIndex) (name : String) : Option ClassInfo :=
  index.classes.find? (fun c => c.name == name)

/-- `_find_param`. -/
def findParam (index : SourceIndex) (name : String) : Option ParamInfo :=
  index.params.find? (fun p => p.name == name)

/-- Result of `_find_function` (a method or a top-level function). -/
structure FoundFunction where
  isMethod : Bool
  className : String
  name : String
  line : Nat
  endLine : Nat
deriving DecidableEq

/-- The matching method of one class, packaged as in `_find_function`. -/
def methodIn (cls : ClassInfo) (name : String) : Option FoundFunction :=
  (cls.methods.find? (fun m => m.name == name)).map (fun m =>
    { isMethod := true, className := cls.name, name := m.name, line := m.line,
      endLine := m.endLine : FoundFunction })

/-- The second loop of `_find_function` (over all classes in order). -/
def findMethodInClasses (classes : List ClassInfo) (name : String) : Option FoundFunction :=
  match classes with
  | [] => none
  | cls :: rest =>
      match methodIn cls name with
      | some f => some f
      | none => findMethodInClasses rest name

/-- `_find_function`: methods of the strategy class first, then methods of
every class in order, then top-level functions. -/
def findFunction (index : SourceIndex) (name : String) : Option FoundFunction :=
  let fromStrategy :=
    match findStrategyClass index with
    | some cls => methodIn cls name
    | none => none
  match fromStrategy with
  | some f => some f
  | none =>
    match findMethodInClasses index.classes name with
    | some f => some f
    | none =>
        (index.functions.find? (fun f => f.name == name)).map (fun f =>
          { isMethod := false, className := "", name := f.name, line := f.line,
            endLine := f.endLine : FoundFunction })

/-- Left-to-right non-overlapping replacement of `"\r\n"` by `"\n"` on char
lists — exactly what `value.replace("\r\n", "\n")` performs for this fixed
pattern. -/
def replaceCrlfChars : List Char → List Char
  | '\r' :: '\n' :: rest => '\n' :: replaceCrlfChars rest
  | c :: rest => c :: replaceCrlfChars rest
  | [] => []

/-- `_normalize_text` (`value.replace("\r\n", "\n")`). -/
def normalizeText (value : String) : String := String.mk (replaceCrlfChars value.data)

/-- Python `value.rstrip("\n")`: drop every trailing `'\n'`. -/
def stripTrailingNl (value : String) : String :=
  String.mk ((value.data.reverse.dropWhile (· == '\n')).reverse)

/-- `_segment_matches`. -/
def segmentMatches (segment before : String) : Bool :=
  let segmentNorm := normalizeText segment
  let beforeNorm := normalizeText before
  if segmentNorm == beforeNorm then true
  else if stripTrailingNl segmentNorm == stripTrailingNl beforeNorm then true
  else false

/-- The `target` object of a replace edit (a JSON dict in the source; the
fields below are the keys the code reads, with the dict-absent defaults the
code substitutes: `str(target.get(...) or "")` / `int(target.get(...) or 0)`). -/
structure TargetReq where
  kind : String := ""
  name : String := ""
  startLine : Nat := 0
  endLine : Nat := 0
deriving DecidableEq

/-- The `anchor` object of an insert edit. -/
structure AnchorReq where
  kind : String := ""
  name : String := ""
deriving DecidableEq

/-- One element of the `edits` payload list.  `Option` fields model the
`isinstance(..., str)` / `isinstance(..., dict)` presence checks. -/
structure EditReq where
  kind : String := ""
  target : Option TargetReq := none
  anchor : Option AnchorReq := none
  before : Option String := none
  after : Option String := none
  content : Option String := none
deriving DecidableEq

/-- `_resolve_replace_target`: returns `(startLine, endLine, segment, label)`. -/
def resolveReplaceTarget (target : TargetReq) (index : SourceIndex) (lines : List String) :
    Except String (Nat × Nat × String × String) :=
  match target.kind |> PySrc.pyStrip with
  | "function" =>
      let name := target.name |> PySrc.pyStrip
      if name = "" then .error "target name required for function"
      else
        match findFunction index name with
        | none => .error ("target-not-found: function " ++ name)
        | some found =>
            let start := found.line
            let stop := found.endLine
            let segment := joinLines (sliceList lines (start - 1) stop)
            let label :=
              if found.isMethod then "method " ++ found.className ++ "." ++ name
              else "function " ++ name
            .ok (start, stop, segment, label)
  | "class" =>
      let name := target.name |> PySrc.pyStrip
      if name = "" then .error "target name required for class"
      else
        match findClass index name with
        | none => .error ("target-not-found: class " ++ name)
        | some cls =>
            .ok (cls.line, cls.endLine,
                 joinLines (sliceList lines (cls.line - 1) cls.endLine), "class " ++ name)
  | "param" =>
      let name := target.name |> PySrc.pyStrip
      if name = "" then .error "target name required for param"
      else
        match findParam index name with
        | none => .error ("target-not-found: param " ++ name)
        | some param =>
            .ok (param.line, param.endLine,
                 joinLines (sliceList lines (param.line - 1) param.endLine), "param " ++ name)
  | "range" =>
      let start := target.startLine
      let stop := target.endLine
      if start < 1 || stop < start || stop > lines.length then .error "invalid-range"
      else
        .ok (start, stop, joinLines (sliceList lines (start - 1) stop),
             "range " ++ toString start ++ "-" ++ toString stop)
  | _ => .error "invalid target kind"

/-- `int(x or 1)` on a line attribute: parsed nodes always carry the
attribute, so only the falsy value `0` is replaced by `1`. -/
def orOneNat (n : Nat) : Nat := if n == 0 then 1 else n

/-- The docstring part of the `after_imports` resolution: `body[0]` must be
an `ast.Expr` holding a string `ast.Constant`. -/
def docstringEnd (tree : PModule) : Nat :=
  match tree.body with
  | (_, endLineno, .exprStmt (.const (.str _))) :: _ => orOneNat endLineno
  | _ => 0

/-- The import-scan loop of the `after_imports` resolution: accumulate the
end line of each import; once at least one import has been seen, the first
non-import statement breaks the loop. -/
def importScan : List (Nat × Nat × PStmt) → Nat → Nat
  | [], last => last
  | (_, endLineno, .imp) :: rest, _ => importScan rest (orOneNat endLineno)
  | (_, endLineno, .impFrom) :: rest, _ => importScan rest (orOneNat endLineno)
  | _ :: rest, last => if last > 0 then last else importScan rest last

/-- The `after_imports` insertion line computed from a parsed tree
(`max(doc_end, last_import_end)`). -/
def afterImportsInsert (tree : PModule) : Nat :=
  max (docstringEnd tree) (importScan tree.body 0)

/-- `_resolve_anchor`: returns `(insertLine, label)`.  `after_imports`
re-parses the joined buffer inside a `try/except` whose handler yields 0. -/
def resolveAnchor (parse : ParseFn) (anchor : AnchorReq) (index : SourceIndex)
    (lines : List String) : Except String (Nat × String) :=
  match anchor.kind |> PySrc.pyStrip with
  | "after_function" =>
      let name := anchor.name |> PySrc.pyStrip
      if name = "" then .error "anchor name required for after_function"
      else
        match findFunction index name with
        | none => .error ("anchor-not-found: function " ++ name)
        | some found => .ok (found.endLine, "after function " ++ name)
  | "after_imports" =>
      let insertAt :=
        match parse (joinLines lines) with
        | .error _ => 0
        | .ok tree => afterImportsInsert tree
      .ok (insertAt, "after imports")
  | "class_end" =>
      let name := anchor.name |> PySrc.pyStrip
      let cls := if name ≠ "" then findClass index name else findStrategyClass index
      match cls with
      | none => .error "anchor-not-found: class"
      | some c => .ok (c.endLine, "end of class " ++ c.name)
  | "module_end" => .ok (lines.length, "end of module")
  | "heuristic_indicators" =>
      match findStrategyClass index with
      | some strategy =>
          match strategy.methods.find? (fun m => m.name == "populate_indicators") with
          | some m => .ok (m.endLine, "after populate_indicators")
          | none => .ok (strategy.endLine, "end of class " ++ strategy.name)
      | none => .ok (lines.length, "end of module")
  | _ => .error "invalid anchor kind"

/-- `_ensure_trailing_newline`. -/
def ensureTrailingNewline (content : String) (mustTerminate : Bool) : String :=
  if mustTerminate && content ≠ "" && !(endsWithNl content) then content ++ "\n"
  else content

/-- Record of one applied edit (the dict appended to `applied`). -/
inductive AppliedEdit where
  | replace (target : TargetReq) (startLine endLine : Nat)
  | insert (anchor : AnchorReq) (line : Nat) (label : String)
deriving DecidableEq

/-- The edit loop of `_apply_edits`: before each edit the current buffer is
re-joined, re-parsed and re-indexed. -/
def applyEditsLoop (parse : ParseFn) : List String → List EditReq → List AppliedEdit →
    Except String (List String × List AppliedEdit)
  | lines, [], applied => .ok (lines, applied)
  | lines, edit :: rest, applied =>
    let currentSrc := joinLines lines
    match parse currentSrc with
    | .error e => .error e
    | .ok tree =>
      let index := buildIndex tree currentSrc
      match edit.kind |> PySrc.pyStrip with
      | "replace" =>
          match edit.target with
          | none => .error "replace edits require target"
          | some target =>
            match edit.before, edit.after with
            | some before, some after =>
                (match resolveReplaceTarget target index lines with
                 | .error e => .error e
                 | .ok (start, stop, segment, label) =>
                   if segmentMatches segment before then
                     applyEditsLoop parse
                       (spliceList lines (start - 1) stop (splitlinesKeepends after)) rest
                       (applied ++ [.replace target start stop])
                   else .error ("before mismatch for " ++ label))
            | _, _ => .error "replace edits require before/after strings"
      | "insert" =>
          match edit.anchor with
          | none => .error "insert edits require anchor"
          | some anchor =>
            match (match edit.after with | some s => some s | none => edit.content) with
            | none => .error "insert edits require content"
            | some rawContent =>
                match resolveAnchor parse anchor index lines with
                | .error e => .error e
                | .ok (insertAt, label) =>
                  let content := ensureTrailingNewline rawContent (insertAt < lines.length)
                  applyEditsLoop parse
                    (spliceList lines insertAt insertAt (splitlinesKeepends content)) rest
                    (applied ++ [.insert anchor (insertAt + 1) label])
      | _ => .error "invalid edit kind"

/-- `_apply_edits`. -/
def applyEdits (parse : ParseFn) (src : String) (edits : List EditReq) :
    Except String (String × List AppliedEdit) :=
  match applyEditsLoop parse (splitlinesKeepends src) edits [] with
  | .error e => .error e
  | .ok (lines, applied) => .ok (joinLines lines, applied)

/-- The on-disk content after `cmd_apply` runs on a file holding `src`:
the file is rewritten with the new text only when every edit succeeded and
`dryRun` is false; an exception propagates before the `open(...).write`. -/
def cmdApplyDisk (parse : ParseFn) (src : String) (edits : List EditReq) (dryRun : Bool) : String :=
  match applyEdits parse src edits with
  | .error _ => src
  | .ok (newSrc, _) => if dryRun then src else newSrc

end EditTools

namespace ParamTools

open PySrc

/-! Embedding of `src/server/utils/strategy-ast/param_tools.py`.  The
functions `_is_param_call`, `_safe_literal`, `_get_param_target_name`,
`_get_param_assignment` and `_extract_assignments` are textually identical
to the copies in `edit_tools.py`; the `EditTools` definitions are reused. -/

/-- `_parse_statement` (shared verbatim with `attr_tools.py`).  The trailing
`isinstance(st, ast.stmt)` check of the source can never fail (module bodies
hold statements) and has no model counterpart. -/
def parseStatement (parse : ParseFn) (src : String) : Except String PStmt :=
  match parse (dedent src) with
  | .error e => .error e
  | .ok m =>
      match m.body with
      | [(_, _, st)] => .ok st
      | _ => .error "Expected exactly one statement"

/-- Is the value an `ast.Call`? -/
def isCallExpr : PExpr → Bool
  | .call _ _ _ => true
  | _ => false

/-- The named keywords of a call as `(arg, ast.dump(value))` pairs, in
source order (`if not isinstance(k, ast.keyword) or not k.arg: continue` —
`None` and the falsy empty string are skipped). -/
def namedKwDumps (kws : List (Option String × PExpr)) : List (String × String) :=
  kws.filterMap (fun kv =>
    match kv.1 with
    | some n => if n = "" then none else some (n, pdump kv.2)
    | none => none)

/-- The names of the named keywords of a call expression, in source order. -/
def namedKeys (e : PExpr) : List String :=
  (namedKwDumps (EditTools.callKeywords e)).map Prod.fst

/-- The sort of `kws_dump.sort(key=lambda x: x[0])`: stable, by key only
(modelled by stable insertion sort, like the extraction sorts). -/
def kwLe (a b : String × String) : Bool := strLe a.1 b.1

/-- The keyword sort of `_call_signature`. -/
def sortKws (kws : List (String × String)) : List (String × String) :=
  kws.insertionSort (fun a b => kwLe a b = true)

/-- `_call_signature`: `(fn_name, [ast.dump(a) for a in args], sorted named
keyword dumps)`. -/
def callSignature (call : PExpr) : String × List String × List (String × String) :=
  (EditTools.funcName (EditTools.callFunc call),
   (EditTools.callArgs call).map pdump,
   sortKws (namedKwDumps (EditTools.callKeywords call)))

/-- The inner `normalize` of `_validate_default_only`: a single-name
assignment whose value is a call. -/
def normalizeParamAssign : PStmt → Except String (String × PExpr)
  | .assign targets value =>
      match (targets.filterMap EditTools.getParamTargetName).filter (fun t => t ≠ "") with
      | [t] =>
          if isCallExpr value then .ok (t, value) else .error "Assigned value must be a call"
      | _ => .error "Assignment target must be a single name"
  | .annAssign target oval =>
      match EditTools.getParamTargetName target with
      | some t =>
          if t = "" then .error "Assignment target must be a single name"
          else
            match oval with
            | some v => if isCallExpr v then .ok (t, v) else .error "Assigned value must be a call"
            | none => .error "Assigned value must be a call"
      | none => .error "Assignment target must be a single name"
  | _ => .error "Only assignment statements are allowed"

/-- `strip_default`. -/
def stripDefault (kws : List (String × String)) : List (String × String) :=
  kws.filter (fun kv => kv.1 ≠ "default")

/-- `_validate_default_only`. -/
def validateDefaultOnly (beforeStmt afterStmt : PStmt) : Except String Unit :=
  match normalizeParamAssign beforeStmt with
  | .error e => .error e
  | .ok (bName, bCall) =>
    match normalizeParamAssign afterStmt with
    | .error e => .error e
    | .ok (aName, aCall) =>
      if bName ≠ aName then .error "Assignment target must match"
      else if !(EditTools.isParamCall bCall) || !(EditTools.isParamCall aCall) then
        .error "Assigned value must be a Parameter(...) call"
      else
        let (bFn, bArgs, bKws) := callSignature bCall
        let (aFn, aArgs, aKws) := callSignature aCall
        if bFn ≠ aFn || bArgs ≠ aArgs then
          .error "Parameter call signature (func/args) must not change"
        else if stripDefault bKws ≠ stripDefault aKws then
          .error "Only the default= keyword may change"
        else .ok ()

/-- One element of the `changes` payload list (`{name, before, after}`). -/
structure Change where
  name : String
  before : String
  after : String
deriving DecidableEq

/-- `by_name = {p["name"]: p for p in params}` followed by `.get(name)`:
a later entry with the same name overwrites an earlier one. -/
def byNameGet (params : List EditTools.ParamInfo) (name : String) :
    Option EditTools.ParamInfo :=
  (params.filter (fun p => p.name == name)).getLast?

/-- The precondition test of the changes variants (`param_tools.py` lines
216–217 and, identically, `attr_tools.py` lines 174–175): plain string
equality `current_seg == before`. -/
def changeSegmentMatches (currentSeg before : String) : Bool := currentSeg == before

/-- The change loop of `cmd_apply`: `by_name` was computed once from the
original source, so `meta["line"]`/`meta["endLine"]` are never recomputed
while `lines` mutates. -/
def applyChangesLoop (parse : ParseFn) (params : List EditTools.ParamInfo) :
    List String → List Change → Except String (List String)
  | lines, [] => .ok lines
  | lines, ch :: rest =>
    if ch.name = "" then .error "change must include name, before, after"
    else
      match byNameGet params ch.name with
      | none => .error ("unknown parameter: " ++ ch.name)
      | some meta =>
        let start := meta.line - 1
        let stop := meta.endLine
        let currentSeg := joinLines (sliceList lines start stop)
        if changeSegmentMatches currentSeg ch.before then
          match parseStatement parse ch.before with
          | .error e => .error e
          | .ok bStmt =>
            match parseStatement parse ch.after with
            | .error e => .error e
            | .ok aStmt =>
              match validateDefaultOnly bStmt aStmt with
              | .error e => .error e
              | .ok _ =>
                  applyChangesLoop parse params
                    (spliceList lines start stop (splitlinesKeepends ch.after)) rest
        else .error ("before mismatch for " ++ ch.name)

/-- `cmd_apply` of `param_tools.py` (its pure content: the final text that
would be written back on success). -/
def applyChanges (parse : ParseFn) (src : String) (changes : List Change) :
    Except String String :=
  match parse src with
  | .error e => .error e
  | .ok tree =>
    match applyChangesLoop parse (EditTools.extractAssignments tree src)
        (splitlinesKeepends src) changes with
    | .error e => .error e
    | .ok lines => .ok (joinLines lines)

/-- The on-disk content after `param_tools.py cmd_apply`: the write happens
only after the whole loop succeeded; any exception propagates first. -/
def paramDiskAfter (parse : ParseFn) (src : String) (changes : List Change) : String :=
  match applyChanges parse src changes with
  | .error _ => src
  | .ok newSrc => newSrc

end ParamTools

namespace AttrTools

open PySrc

/-! Embedding of `src/server/utils/strategy-ast/attr_tools.py`. -/

/-- `_ALLOWED_ATTRS`. -/
def allowedAttrs : List String :=
  ["stoploss", "trailing_stop", "trailing_stop_positive",
   "trailing_stop_positive_offset", "trailing_only_offset_is_reached"]

/-- `_get_target_name` (textually identical to `_get_param_target_name`). -/
def getTargetName : PExpr → Option String
  | .name i => some i
  | _ => none

/-- The result of `_get_assignment`: `(name, value, lineno, end_lineno)`. -/
def getAssignment : Nat × Nat × PStmt → Option (String × PExpr × Nat × Nat)
  | (lineno, endLineno, .assign targets value) =>
      match targets with
      | [t] =>
          match getTargetName t with
          | some name =>
              if name = "" || !(allowedAttrs.contains name) then none
              else some (name, value, lineno, endLineno)
          | none => none
      | _ => none
  | (lineno, endLineno, .annAssign target oval) =>
      match getTargetName target with
      | some name =>
          if name = "" || !(allowedAttrs.contains name) then none
          else
            match oval with
            | some value => some (name, value, lineno, endLineno)
            | none => none
      | none => none
  | _ => none

/-- `_find_strategy_class` of `attr_tools.py`: the first `ClassDef` of the
module body, regardless of its bases. -/
def findStrategyClass : List (Nat × Nat × PStmt) → Option (Nat × Nat × PStmt)
  | [] => none
  | (l, e, .classDef n bs body) :: _ => some (l, e, .classDef n bs body)
  | _ :: rest => findStrategyClass rest

/-- One entry produced by `_extract`. -/
structure AttrInfo where
  name : String
  line : Nat
  endLine : Nat
  value : Option PLit
  before : String
deriving DecidableEq

/-- Sort key of `_extract`: `int(x.get("line") or 0)`. -/
def attrLe (x y : AttrInfo) : Bool := decide (x.line ≤ y.line)

/-- `_extract`: scans only the direct children of the first class's body. -/
def extract (tree : PModule) (src : String) : List AttrInfo :=
  match findStrategyClass tree.body with
  | none => []
  | some (_, _, cls) =>
    let body :=
      match cls with
      | .classDef _ _ b => b
      | _ => []
    let lines := splitlinesKeepends src
    (body.filterMap (fun node =>
      match getAssignment node with
      | none => none
      | some (name, valueNode, lineno, endLineno) =>
          some { name := name, line := lineno, endLine := endLineno,
                 value := EditTools.safeLiteral valueNode,
                 before := joinLines (sliceList lines (lineno - 1) endLineno) : AttrInfo }))
      |>.insertionSort (fun x y => attrLe x y = true)

/-- `_normalize_assignment`. -/
def normalizeAssignment : PStmt → Except String (String × PExpr)
  | .assign targets value =>
      match targets with
      | [t] =>
          match getTargetName t with
          | some name =>
              if name = "" then .error "Assignment target must be a name" else .ok (name, value)
          | none => .error "Assignment target must be a name"
      | _ => .error "Assignment must have exactly one target"
  | .annAssign target oval =>
      match getTargetName target with
      | some name =>
          if name = "" then .error "Assignment target must be a name"
          else
            match oval with
            | some v => .ok (name, v)
            | none => .error "Annotated assignment must have a value"
      | none => .error "Assignment target must be a name"
  | _ => .error "Only assignment statements are allowed"

/-- Is the node an `ast.Constant`? -/
def isConstExpr : PExpr → Bool
  | .const _ => true
  | _ => false

/-- `_validate_literal_change`. -/
def validateLiteralChange (beforeStmt afterStmt : PStmt) : Except String Unit :=
  match normalizeAssignment beforeStmt with
  | .error e => .error e
  | .ok (bName, bValue) =>
    match normalizeAssignment afterStmt with
    | .error e => .error e
    | .ok (aName, aValue) =>
      if bName ≠ aName then .error "Assignment target must match"
      else if !(allowedAttrs.contains bName) then .error "Attribute not allowed"
      else if !(isConstExpr bValue) || !(isConstExpr aValue) then
        .error "Only literal (constant) assignments are allowed"
      else .ok ()

/-- `by_name = {a["name"]: a for a in attrs}` followed by `.get(name)`. -/
def byNameGet (attrs : List AttrInfo) (name : String) : Option AttrInfo :=
  (attrs.filter (fun a => a.name == name)).getLast?

/-- The change loop of `attr_tools.py cmd_apply` (same shape as the
`param_tools.py` loop, with `_validate_literal_change`). -/
def applyChangesLoop (parse : ParseFn) (attrs : List AttrInfo) :
    List String → List ParamTools.Change → Except String (List String)
  | lines, [] => .ok lines
  | lines, ch :: rest =>
    if ch.name = "" then .error "change must include name, before, after"
    else
      match byNameGet attrs ch.name with
      | none => .error ("unknown attribute: " ++ ch.name)
      | some meta =>
        let start := meta.line - 1
        let stop := meta.endLine
        let currentSeg := joinLines (sliceList lines start stop)
        if ParamTools.changeSegmentMatches currentSeg ch.before then
          match ParamTools.parseStatement parse ch.before with
          | .error e => .error e
          | .ok bStmt =>
            match ParamTools.parseStatement parse ch.after with
            | .error e => .error e
            | .ok aStmt =>
              match validateLiteralChange bStmt aStmt with
              | .error e => .error e
              | .ok _ =>
                  applyChangesLoop parse attrs
                    (spliceList lines start stop (splitlinesKeepends ch.after)) rest
        else .error ("before mismatch for " ++ ch.name)

/-- `cmd_apply` of `attr_tools.py` (pure content). -/
def applyChanges (parse : ParseFn) (src : String) (changes : List ParamTools.Change) :
    Except String String :=
  match parse src with
  | .error e => .error e
  | .ok tree =>
    match applyChangesLoop parse (extract tree src) (splitlinesKeepends src) changes with
    | .error e => .error e
    | .ok lines => .ok (joinLines lines)

/-- The on-disk content after `attr_tools.py cmd_apply`. -/
def attrDiskAfter (parse : ParseFn) (src : String) (changes : List ParamTools.Change) : String :=
  match applyChanges parse src changes with
  | .error _ => src
  | .ok newSrc => newSrc

end AttrTools

namespace SpecSide

open PySrc

/-! Definitions that follow the wording of spec claims (not the source);
each is compared against the corresponding source-derived definition. -/

/-- Follows the words of claim C3: the normalization treats `\r\n` and `\n`
as equivalent and tolerates a missing-versus-present single trailing
newline, and nothing else. -/
def claimedMatchC3 (segment before : String) : Prop :=
  EditTools.normalizeText segment = EditTools.normalizeText before ∨
  EditTools.normalizeText segment = EditTools.normalizeText before ++ "\n" ∨
  EditTools.normalizeText before = EditTools.normalizeText segment ++ "\n"

/-- Follows the words of claim C5 for the changes variant: the change loop
re-parses and re-extracts the index from the line buffer as it stands just
before each change, and resolves the change's name against that fresh
index. -/
def applyChangesReindexedLoop (parse : ParseFn) :
    List String → List ParamTools.Change → Except String (List String)
  | lines, [] => .ok lines
  | lines, ch :: rest =>
    if ch.name = "" then .error "change must include name, before, after"
    else
      match parse (joinLines lines) with
      | .error e => .error e
      | .ok tree =>
        match ParamTools.byNameGet (EditTools.extractAssignments tree (joinLines lines)) ch.name with
        | none => .error ("unknown parameter: " ++ ch.name)
        | some meta =>
          let start := meta.line - 1
          let stop := meta.endLine
          let currentSeg := joinLines (sliceList lines start stop)
          if ParamTools.changeSegmentMatches currentSeg ch.before then
            match ParamTools.parseStatement parse ch.before with
            | .error e => .error e
            | .ok bStmt =>
              match ParamTools.parseStatement parse ch.after with
              | .error e => .error e
              | .ok aStmt =>
                match ParamTools.validateDefaultOnly bStmt aStmt with
                | .error e => .error e
                | .ok _ =>
                    applyChangesReindexedLoop parse
                      (spliceList lines start stop (splitlinesKeepends ch.after)) rest
          else .error ("before mismatch for " ++ ch.name)

/-- The claim-C5 variant of `param_tools.py cmd_apply`. -/
def applyChangesReindexed (parse : ParseFn) (src : String)
    (changes : List ParamTools.Change) : Except String String :=
  match applyChangesReindexedLoop parse (splitlinesKeepends src) changes with
  | .error e => .error e
  | .ok lines => .ok (joinLines lines)

/-- Is the statement an `ast.Import`/`ast.ImportFrom`? -/
def isImportStmt : PStmt → Bool
  | .imp => true
  | .impFrom => true
  | _ => false

/-- Is the statement an `ast.ClassDef`? -/
def isClassDefStmt : PStmt → Bool
  | .classDef _ _ _ => true
  | _ => false

/-- `int(end_lineno or 1)` of the last statement of a list (0 when the
list is empty). -/
def lastEndOf : List (Nat × Nat × PStmt) → Nat
  | [] => 0
  | [(_, e, _)] => EditTools.orOneNat e
  | _ :: rest => lastEndOf rest

/-- Follows the words of claim C9: the end line of a contiguous *leading*
run of import statements; the module docstring, when present, may precede
the run (the spec's own example places the run after a docstring), but any
other statement before the first import makes the leading run empty. -/
def leadingImportRunEnd (body : List (Nat × Nat × PStmt)) : Nat :=
  let afterDoc :=
    match body with
    | (_, _, .exprStmt (.const (.str _))) :: rest => rest
    | l => l
  lastEndOf (afterDoc.takeWhile (fun t => isImportStmt t.2.2))

/-- The claim-C9 formula for the `after_imports` insertion line. -/
def afterImportsClaim (tree : PModule) : Nat :=
  max (EditTools.docstringEnd tree) (leadingImportRunEnd tree.body)

/-- The end line of the *first* contiguous run of import statements,
wherever it starts: statements before the first import are skipped; the
scan stops at the first non-import statement after the run. -/
def firstImportBlockEnd (body : List (Nat × Nat × PStmt)) : Nat :=
  match body.dropWhile (fun t => !(isImportStmt t.2.2)) with
  | [] => 0
  | l => lastEndOf (l.takeWhile (fun t => isImportStmt t.2.2))

end SpecSide

namespace Fx

open PySrc EditTools ParamTools AttrTools

/-! Concrete fixtures: sources, their hand-translated Python parses, and
parse tables used by the concrete runs in counterexamples and witnesses. -/

/-- `x = IntParameter(1, 2, default=3, space="buy")`. -/
def srcA : String := "x = IntParameter(1, 2, default=3, space=\"buy\")\n"

/-- Same parameter with only `space=` changed. -/
def afterA : String := "x = IntParameter(1, 2, default=3, space=\"sell\")\n"

/-- Same parameter with only `default=` changed. -/
def afterOk : String := "x = IntParameter(1, 2, default=9, space=\"buy\")\n"

def callBuy : PExpr :=
  .call (.name "IntParameter") [.const (.int 1), .const (.int 2)]
    [(some "default", .const (.int 3)), (some "space", .const (.str "buy"))]

def callSell : PExpr :=
  .call (.name "IntParameter") [.const (.int 1), .const (.int 2)]
    [(some "default", .const (.int 3)), (some "space", .const (.str "sell"))]

def callBuy9 : PExpr :=
  .call (.name "IntParameter") [.const (.int 1), .const (.int 2)]
    [(some "default", .const (.int 9)), (some "space", .const (.str "buy"))]

def stmtBuy : PStmt := .assign [.name "x"] callBuy
def stmtSell : PStmt := .assign [.name "x"] callSell
def stmtBuy9 : PStmt := .assign [.name "x"] callBuy9

def modBuy : PModule := ⟨[(1, 1, stmtBuy)]⟩
def modSell : PModule := ⟨[(1, 1, stmtSell)]⟩
def modBuy9 : PModule := ⟨[(1, 1, stmtBuy9)]⟩

/-- Parse table for the `srcA` fixtures. -/
def parseA : ParseFn := fun s =>
  if s = srcA then .ok modBuy
  else if s = afterA then .ok modSell
  else if s = afterOk then .ok modBuy9
  else .error "SyntaxError"

/-- A `Replace` edit of the `param` target `x` whose after-text changes
`space="buy"` to `space="sell"`. -/
def editA : EditReq :=
  { kind := "replace", target := some { kind := "param", name := "x" },
    before := some srcA, after := some afterA }

/-- A `Replace` edit whose declared before-text does not match. -/
def editMismatch : EditReq :=
  { kind := "replace", target := some { kind := "param", name := "x" },
    before := some "y = 2\n", after := some afterA }

/-- A default-only change of `x` (accepted by the validator). -/
def chDefaultOnly : Change := { name := "x", before := srcA, after := afterOk }

/-! Fixture for C5: two parameters; the first change grows its assignment
from one line to two, shifting the second parameter down by one line. -/

def beforeP1 : String := "a = IntParameter(1, 2, default=3)\n"
def afterP1 : String := "a = IntParameter(1, 2,\n                 default=9)\n"
def beforeP2 : String := "b = IntParameter(4, 5, default=6)\n"
def afterP2 : String := "b = IntParameter(4, 5, default=7)\n"

def srcP : String := beforeP1 ++ beforeP2
def srcPMid : String := afterP1 ++ beforeP2
def srcPFinal : String := afterP1 ++ afterP2

def stmtP1 : PStmt :=
  .assign [.name "a"]
    (.call (.name "IntParameter") [.const (.int 1), .const (.int 2)]
      [(some "default", .const (.int 3))])
def stmtP1v9 : PStmt :=
  .assign [.name "a"]
    (.call (.name "IntParameter") [.const (.int 1), .const (.int 2)]
      [(some "default", .const (.int 9))])
def stmtP2 : PStmt :=
  .assign [.name "b"]
    (.call (.name "IntParameter") [.const (.int 4), .const (.int 5)]
      [(some "default", .const (.int 6))])
def stmtP2v7 : PStmt :=
  .assign [.name "b"]
    (.call (.name "IntParameter") [.const (.int 4), .const (.int 5)]
      [(some "default", .const (.int 7))])

def modP : PModule := ⟨[(1, 1, stmtP1), (2, 2, stmtP2)]⟩
def modBeforeP1 : PModule := ⟨[(1, 1, stmtP1)]⟩
def modAfterP1 : PModule := ⟨[(1, 2, stmtP1v9)]⟩
def modBeforeP2 : PModule := ⟨[(1, 1, stmtP2)]⟩
def modAfterP2 : PModule := ⟨[(1, 1, stmtP2v7)]⟩
def modPMid : PModule := ⟨[(1, 2, stmtP1v9), (3, 3, stmtP2)]⟩

/-- Parse table for the C5 fixture (every string the two runs parse). -/
def parseP : ParseFn := fun s =>
  if s = srcP then .ok modP
  else if s = beforeP1 then .ok modBeforeP1
  else if s = afterP1 then .ok modAfterP1
  else if s = beforeP2 then .ok modBeforeP2
  else if s = afterP2 then .ok modAfterP2
  else if s = srcPMid then .ok modPMid
  else .error "SyntaxError"

def chP1 : Change := { name := "a", before := beforeP1, after := afterP1 }
def chP2 : Change := { name := "b", before := beforeP2, after := afterP2 }

/-! Fixture for the general-variant re-indexing scenario (spec section 8):
a docstring, three imports, and a trailing statement; an `after_imports`
insert followed by a `module_end` insert. -/

def srcD : String := "\"\"\"doc\"\"\"\nimport a\nimport b\nimport c\nx = 1\n"
def srcD1 : String := "\"\"\"doc\"\"\"\nimport a\nimport b\nimport c\ny = 2\nx = 1\n"
def srcDFinal : String := srcD1 ++ "z = 3"

def modD : PModule :=
  ⟨[(1, 1, .exprStmt (.const (.str "doc"))),
    (2, 2, .imp), (3, 3, .imp), (4, 4, .imp),
    (5, 5, .assign [.name "x"] (.const (.int 1)))]⟩

def modD1 : PModule :=
  ⟨[(1, 1, .exprStmt (.const (.str "doc"))),
    (2, 2, .imp), (3, 3, .imp), (4, 4, .imp),
    (5, 5, .assign [.name "y"] (.const (.int 2))),
    (6, 6, .assign [.name "x"] (.const (.int 1)))]⟩

def parseD : ParseFn := fun s =>
  if s = srcD then .ok modD
  else if s = srcD1 then .ok modD1
  else .error "SyntaxError"

def insertAfterImports : EditReq :=
  { kind := "insert", anchor := some { kind := "after_imports" }, content := some "y = 2" }

def insertModuleEnd : EditReq :=
  { kind := "insert", anchor := some { kind := "module_end" }, content := some "z = 3" }

/-! Fixture for C8: the first class does not derive from `IStrategy`, a
later one does; both bodies assign a whitelisted attribute. -/

def srcC8 : String :=
  "class A(Base):\n    stoploss = 0.05\nclass B(IStrategy):\n    stoploss = 0.1\n"

def modC8 : PModule :=
  ⟨[(1, 2, .classDef "A" [.name "Base"]
      [(2, 2, .assign [.name "stoploss"] (.const (.float "0.05")))]),
    (3, 4, .classDef "B" [.name "IStrategy"]
      [(4, 4, .assign [.name "stoploss"] (.const (.float "0.1")))])]⟩

/-! Fixture for C9: a non-import statement precedes the only import, so the
leading import run is empty while the code's scan still finds the import. -/

def modC9 : PModule :=
  ⟨[(1, 1, .assign [.name "x"] (.const (.int 1))), (2, 2, .imp)]⟩

/-! Statements for the attribute-validator claims. -/

def stmtStop05 : PStmt := .assign [.name "stoploss"] (.const (.float "0.05"))
def stmtStop07 : PStmt := .assign [.name "stoploss"] (.const (.float "0.07"))
def stmtStopNeg05 : PStmt :=
  .assign [.name "stoploss"] (.unaryOp "USub" (.const (.float "0.05")))
def stmtStopNeg06 : PStmt :=
  .assign [.name "stoploss"] (.unaryOp "USub" (.const (.float "0.06")))
def stmtStopCall : PStmt :=
  .assign [.name "stoploss"] (.call (.name "some_call") [] [])

end Fx

/-! ## Helper lemmas -/

namespace PySrc

theorem mk_append (a b : List Char) : String.mk a ++ String.mk b = String.mk (a ++ b) := rfl

theorem joinLines_cons (s : String) (rest : List String) :
    joinLines (s :: rest) = s ++ joinLines rest := rfl

theorem joinLines_splitKeepAux (cs acc : List Char) :
    joinLines (splitKeepAux cs acc) = String.mk (acc.reverse ++ cs) := by
  induction cs, acc using splitKeepAux.induct with
  | case1 acc h =>
      rw [splitKeepAux.eq_1, if_pos h]
      simp only [List.isEmpty_iff] at h
      subst h
      rfl
  | case2 acc h =>
      rw [splitKeepAux.eq_1, if_neg h, joinLines_cons,
        show joinLines [] = String.mk [] from rfl, mk_append]
  | case3 rest acc ih =>
      rw [splitKeepAux.eq_2, joinLines_cons, ih, mk_append]
      simp
  | case4 rest acc hne ih =>
      rw [splitKeepAux.eq_3 acc rest hne, joinLines_cons, ih, mk_append]
      simp
  | case5 rest acc ih =>
      rw [splitKeepAux.eq_4, joinLines_cons, ih, mk_append]
      simp
  | case6 c rest acc h1 h2 h3 ih =>
      rw [splitKeepAux.eq_5 acc c rest h1 h2 h3, ih]
      simp

/-- `"".join(s.splitlines(keepends=True)) == s`. -/
theorem joinLines_splitlinesKeepends (s : String) : joinLines (splitlinesKeepends s) = s := by
  rw [splitlinesKeepends, joinLines_splitKeepAux]
  rfl

end PySrc

namespace Helper

open PySrc

/-- The strategy-class loop of `edit_tools.py` is `find?` on the
`IStrategy` test with a `head?` fallback. -/
theorem findStrategyClassAux_eq (cs all : List EditTools.ClassInfo) :
    EditTools.findStrategyClass.findStrategyClassAux cs all =
      (match cs.find? (fun c => c.bases.contains "IStrategy") with
       | some c => some c
       | none => all.head?) := by
  induction cs with
  | nil => rfl
  | cons c rest ih =>
      cases hc : c.bases.contains "IStrategy" with
      | true =>
          simp only [EditTools.findStrategyClass.findStrategyClassAux, List.find?_cons, hc]
          simp [hc]
      | false =>
          simp only [EditTools.findStrategyClass.findStrategyClassAux, List.find?_cons, hc]
          simp [hc, ih]

theorem orOneNat_pos (e : Nat) : 0 < EditTools.orOneNat e := by
  unfold EditTools.orOneNat
  split
  · omega
  · rename_i h
    have he : e ≠ 0 := by simpa using h
    omega

/-- The strategy-class loop of `attr_tools.py` is `find?` on `ClassDef`. -/
theorem attrFindStrategyClass_eq (body : List (Nat × Nat × PStmt)) :
    AttrTools.findStrategyClass body = body.find? (fun t => SpecSide.isClassDefStmt t.2.2) := by
  induction body with
  | nil => rfl
  | cons x rest ih =>
      obtain ⟨l, e, s⟩ := x
      cases s <;> simp [AttrTools.findStrategyClass, List.find?_cons, SpecSide.isClassDefStmt, ih]

/-- Once at least one import has been consumed (`last > 0`), the scan loop
returns the end of the maximal contiguous import run it is inside. -/
theorem importScan_pos (body : List (Nat × Nat × PStmt)) :
    ∀ last : Nat, 0 < last →
    EditTools.importScan body last =
      (match body.takeWhile (fun t => SpecSide.isImportStmt t.2.2) with
       | [] => last
       | l => SpecSide.lastEndOf l) := by
  induction body with
  | nil => intro last h; rfl
  | cons x rest ih =>
      intro last h
      obtain ⟨l, e, s⟩ := x
      cases s with
      | imp =>
          rw [show EditTools.importScan ((l, e, PStmt.imp) :: rest) last =
              EditTools.importScan rest (EditTools.orOneNat e) from rfl,
            ih _ (orOneNat_pos e)]
          rw [List.takeWhile_cons]
          cases htw : rest.takeWhile (fun t => SpecSide.isImportStmt t.2.2) with
          | nil => simp [SpecSide.isImportStmt, SpecSide.lastEndOf]
          | cons y ys => simp [SpecSide.isImportStmt, SpecSide.lastEndOf]
      | impFrom =>
          rw [show EditTools.importScan ((l, e, PStmt.impFrom) :: rest) last =
              EditTools.importScan rest (EditTools.orOneNat e) from rfl,
            ih _ (orOneNat_pos e)]
          rw [List.takeWhile_cons]
          cases htw : rest.takeWhile (fun t => SpecSide.isImportStmt t.2.2) with
          | nil => simp [SpecSide.isImportStmt, SpecSide.lastEndOf]
          | cons y ys => simp [SpecSide.isImportStmt, SpecSide.lastEndOf]
      | assign targets value =>
          rw [show EditTools.importScan ((l, e, PStmt.assign targets value) :: rest) last =
              (if last > 0 then last else EditTools.importScan rest last) from rfl,
            if_pos h, List.takeWhile_cons]
          simp [SpecSide.isImportStmt]
      | annAssign target oval =>
          rw [show EditTools.importScan ((l, e, PStmt.annAssign target oval) :: rest) last =
              (if last > 0 then last else EditTools.importScan rest last) from rfl,
            if_pos h, List.takeWhile_cons]
          simp [SpecSide.isImportStmt]
      | exprStmt v =>
          rw [show EditTools.importScan ((l, e, PStmt.exprStmt v) :: rest) last =
              (if last > 0 then last else EditTools.importScan rest last) from rfl,
            if_pos h, List.takeWhile_cons]
          simp [SpecSide.isImportStmt]
      | classDef n bs b =>
          rw [show EditTools.importScan ((l, e, PStmt.classDef n bs b) :: rest) last =
              (if last > 0 then last else EditTools.importScan rest last) from rfl,
            if_pos h, List.takeWhile_cons]
          simp [SpecSide.isImportStmt]
      | funcDef n b =>
          rw [show EditTools.importScan ((l, e, PStmt.funcDef n b) :: rest) last =
              (if last > 0 then last else EditTools.importScan rest last) from rfl,
            if_pos h, List.takeWhile_cons]
          simp [SpecSide.isImportStmt]
      | asyncFuncDef n b =>
          rw [show EditTools.importScan ((l, e, PStmt.asyncFuncDef n b) :: rest) last =
              (if last > 0 then last else EditTools.importScan rest last) from rfl,
            if_pos h, List.takeWhile_cons]
          simp [SpecSide.isImportStmt]
      | otherStmt b =>
          rw [show EditTools.importScan ((l, e, PStmt.otherStmt b) :: rest) last =
              (if last > 0 then last else EditTools.importScan rest last) from rfl,
            if_pos h, List.takeWhile_cons]
          simp [SpecSide.isImportStmt]

/-- The import scan started with `last = 0` computes the end of the first
contiguous import block, wherever that block starts. -/
theorem importScan_zero_eq (body : List (Nat × Nat × PStmt)) :
    EditTools.importScan body 0 = SpecSide.firstImportBlockEnd body := by
  induction body with
  | nil => rfl
  | cons x rest ih =>
      obtain ⟨l, e, s⟩ := x
      cases s with
      | imp =>
          rw [show EditTools.importScan ((l, e, PStmt.imp) :: rest) 0 =
              EditTools.importScan rest (EditTools.orOneNat e) from rfl,
            importScan_pos rest _ (orOneNat_pos e)]
          show _ = SpecSide.lastEndOf
            ((l, e, PStmt.imp) :: rest.takeWhile (fun t => SpecSide.isImportStmt t.2.2))
          cases htw : rest.takeWhile (fun t => SpecSide.isImportStmt t.2.2) with
          | nil => simp [SpecSide.lastEndOf]
          | cons y ys => simp [SpecSide.lastEndOf]
      | impFrom =>
          rw [show EditTools.importScan ((l, e, PStmt.impFrom) :: rest) 0 =
              EditTools.importScan rest (EditTools.orOneNat e) from rfl,
            importScan_pos rest _ (orOneNat_pos e)]
          show _ = SpecSide.lastEndOf
            ((l, e, PStmt.impFrom) :: rest.takeWhile (fun t => SpecSide.isImportStmt t.2.2))
          cases htw : rest.takeWhile (fun t => SpecSide.isImportStmt t.2.2) with
          | nil => simp [SpecSide.lastEndOf]
          | cons y ys => simp [SpecSide.lastEndOf]
      | assign targets value =>
          rw [show EditTools.importScan ((l, e, PStmt.assign targets value) :: rest) 0 =
              (if 0 > 0 then 0 else EditTools.importScan rest 0) from rfl, if_neg (by omega), ih]
          unfold SpecSide.firstImportBlockEnd
          rw [List.dropWhile_cons]
          simp [SpecSide.isImportStmt]
      | annAssign target oval =>
          rw [show EditTools.importScan ((l, e, PStmt.annAssign target oval) :: rest) 0 =
              (if 0 > 0 then 0 else EditTools.importScan rest 0) from rfl, if_neg (by omega), ih]
          unfold SpecSide.firstImportBlockEnd
          rw [List.dropWhile_cons]
          simp [SpecSide.isImportStmt]
      | exprStmt v =>
          rw [show EditTools.importScan ((l, e, PStmt.exprStmt v) :: rest) 0 =
              (if 0 > 0 then 0 else EditTools.importScan rest 0) from rfl, if_neg (by omega), ih]
          unfold SpecSide.firstImportBlockEnd
          rw [List.dropWhile_cons]
          simp [SpecSide.isImportStmt]
      | classDef n bs b =>
          rw [show EditTools.importScan ((l, e, PStmt.classDef n bs b) :: rest) 0 =
              (if 0 > 0 then 0 else EditTools.importScan rest 0) from rfl, if_neg (by omega), ih]
          unfold SpecSide.firstImportBlockEnd
          rw [List.dropWhile_cons]
          simp [SpecSide.isImportStmt]
      | funcDef n b =>
          rw [show EditTools.importScan ((l, e, PStmt.funcDef n b) :: rest) 0 =
              (if 0 > 0 then 0 else EditTools.importScan rest 0) from rfl, if_neg (by omega), ih]
          unfold SpecSide.firstImportBlockEnd
          rw [List.dropWhile_cons]
          simp [SpecSide.isImportStmt]
      | asyncFuncDef n b =>
          rw [show EditTools.importScan ((l, e, PStmt.asyncFuncDef n b) :: rest) 0 =
              (if 0 > 0 then 0 else EditTools.importScan rest 0) from rfl, if_neg (by omega), ih]
          unfold SpecSide.firstImportBlockEnd
          rw [List.dropWhile_cons]
          simp [SpecSide.isImportStmt]
      | otherStmt b =>
          rw [show EditTools.importScan ((l, e, PStmt.otherStmt b) :: rest) 0 =
              (if 0 > 0 then 0 else EditTools.importScan rest 0) from rfl, if_neg (by omega), ih]
          unfold SpecSide.firstImportBlockEnd
          rw [List.dropWhile_cons]
          simp [SpecSide.isImportStmt]

/-- Success of the `param_tools.py` change loop implies that every change in
the list passed `_parse_statement` on both texts and `_validate_default_only`. -/
theorem paramLoop_validates (parse : PySrc.ParseFn) (params : List EditTools.ParamInfo) :
    ∀ (changes : List ParamTools.Change) (lines out : List String),
      ParamTools.applyChangesLoop parse params lines changes = .ok out →
      ∀ ch ∈ changes, ∃ b a, ParamTools.parseStatement parse ch.before = .ok b ∧
        ParamTools.parseStatement parse ch.after = .ok a ∧
        ParamTools.validateDefaultOnly b a = .ok () := by
  intro changes
  induction changes with
  | nil =>
      intro lines out h ch hch
      cases hch
  | cons c rest ih =>
      intro lines out h ch hch
      rw [ParamTools.applyChangesLoop] at h
      by_cases hname : c.name = ""
      · rw [if_pos hname] at h
        cases h
      · rw [if_neg hname] at h
        cases hmeta : ParamTools.byNameGet params c.name with
        | none =>
            rw [hmeta] at h
            cases h
        | some meta =>
            rw [hmeta] at h
            simp only at h
            by_cases hseg : ParamTools.changeSegmentMatches
                (PySrc.joinLines (PySrc.sliceList lines (meta.line - 1) meta.endLine))
                c.before = true
            · rw [if_pos hseg] at h
              cases hb : ParamTools.parseStatement parse c.before with
              | error e =>
                  rw [hb] at h
                  cases h
              | ok b =>
                  rw [hb] at h
                  simp only at h
                  cases ha : ParamTools.parseStatement parse c.after with
                  | error e =>
                      rw [ha] at h
                      cases h
                  | ok a =>
                      rw [ha] at h
                      simp only at h
                      cases hv : ParamTools.validateDefaultOnly b a with
                      | error e =>
                          rw [hv] at h
                          cases h
                      | ok u =>
                          rw [hv] at h
                          simp only at h
                          rcases List.mem_cons.mp hch with hc | hc
                          · subst hc
                            exact ⟨b, a, hb, ha, hv⟩
                          · exact ih _ _ h ch hc
            · rw [if_neg hseg] at h
              cases h

/-- Success of the `attr_tools.py` change loop implies that every change in
the list passed `_parse_statement` on both texts and `_validate_literal_change`. -/
theorem attrLoop_validates (parse : PySrc.ParseFn) (attrs : List AttrTools.AttrInfo) :
    ∀ (changes : List ParamTools.Change) (lines out : List String),
      AttrTools.applyChangesLoop parse attrs lines changes = .ok out →
      ∀ ch ∈ changes, ∃ b a, ParamTools.parseStatement parse ch.before = .ok b ∧
        ParamTools.parseStatement parse ch.after = .ok a ∧
        AttrTools.validateLiteralChange b a = .ok () := by
  intro changes
  induction changes with
  | nil =>
      intro lines out h ch hch
      cases hch
  | cons c rest ih =>
      intro lines out h ch hch
      rw [AttrTools.applyChangesLoop] at h
      by_cases hname : c.name = ""
      · rw [if_pos hname] at h
        cases h
      · rw [if_neg hname] at h
        cases hmeta : AttrTools.byNameGet attrs c.name with
        | none =>
            rw [hmeta] at h
            cases h
        | some meta =>
            rw [hmeta] at h
            simp only at h
            by_cases hseg : ParamTools.changeSegmentMatches
                (PySrc.joinLines (PySrc.sliceList lines (meta.line - 1) meta.endLine))
                c.before = true
            · rw [if_pos hseg] at h
              cases hb : ParamTools.parseStatement parse c.before with
              | error e =>
                  rw [hb] at h
                  cases h
              | ok b =>
                  rw [hb] at h
                  simp only at h
                  cases ha : ParamTools.parseStatement parse c.after with
                  | error e =>
                      rw [ha] at h
                      cases h
                  | ok a =>
                      rw [ha] at h
                      simp only at h
                      cases hv : AttrTools.validateLiteralChange b a with
                      | error e =>
                          rw [hv] at h
                          cases h
                      | ok u =>
                          rw [hv] at h
                          simp only at h
                          rcases List.mem_cons.mp hch with hc | hc
                          · subst hc
                            exact ⟨b, a, hb, ha, hv⟩
                          · exact ih _ _ h ch hc
            · rw [if_neg hseg] at h
              cases h

theorem charListLe_cons (x y : Char) (xs ys : List Char) :
    PySrc.charListLe (x :: xs) (y :: ys) =
      if x = y then PySrc.charListLe xs ys else decide (x < y) := by
  simp [PySrc.charListLe]

theorem charListLe_total (a b : List Char) :
    PySrc.charListLe a b = true ∨ PySrc.charListLe b a = true := by
  induction a generalizing b with
  | nil => left; rfl
  | cons x xs ih =>
      cases b with
      | nil => right; rfl
      | cons y ys =>
          rw [charListLe_cons, charListLe_cons]
          by_cases hxy : x = y
          · subst hxy
            rw [if_pos rfl, if_pos rfl]
            exact ih ys
          · have hyx : ¬ y = x := fun hyx => hxy hyx.symm
            rw [if_neg hxy, if_neg hyx]
            rcases lt_or_gt_of_ne hxy with hlt | hgt
            · left
              simpa using hlt
            · right
              simpa using hgt

theorem charListLe_trans (a b c : List Char)
    (hab : PySrc.charListLe a b = true) (hbc : PySrc.charListLe b c = true) :
    PySrc.charListLe a c = true := by
  induction a generalizing b c with
  | nil => rfl
  | cons x xs ih =>
      cases b with
      | nil => simp [PySrc.charListLe] at hab
      | cons y ys =>
          cases c with
          | nil => simp [PySrc.charListLe] at hbc
          | cons z zs =>
              rw [charListLe_cons] at hab hbc ⊢
              by_cases hxy : x = y
              · subst hxy
                rw [if_pos rfl] at hab
                by_cases hxz : x = z
                · subst hxz
                  rw [if_pos rfl] at hbc ⊢
                  exact ih ys zs hab hbc
                · rw [if_neg hxz] at hbc ⊢
                  exact hbc
              · rw [if_neg hxy] at hab
                have hxylt : x < y := by simpa using hab
                by_cases hyz : y = z
                · subst hyz
                  rw [if_neg hxy]
                  simpa using hxylt
                · rw [if_neg hyz] at hbc
                  have hyzlt : y < z := by simpa using hbc
                  have hxzlt : x < z := lt_trans hxylt hyzlt
                  rw [if_neg (ne_of_lt hxzlt)]
                  simpa using hxzlt

theorem charListLe_antisymm (a b : List Char)
    (hab : PySrc.charListLe a b = true) (hba : PySrc.charListLe b a = true) : a = b := by
  induction a generalizing b with
  | nil =>
      cases b with
      | nil => rfl
      | cons y ys => simp [PySrc.charListLe] at hba
  | cons x xs ih =>
      cases b with
      | nil => simp [PySrc.charListLe] at hab
      | cons y ys =>
          rw [charListLe_cons] at hab hba
          by_cases hxy : x = y
          · subst hxy
            rw [if_pos rfl] at hab hba
            rw [ih ys hab hba]
          · have hyx : ¬ y = x := fun hyx => hxy hyx.symm
            rw [if_neg hxy] at hab
            rw [if_neg hyx] at hba
            have h1 : x < y := by simpa using hab
            have h2 : y < x := by simpa using hba
            exact absurd h2 (not_lt_of_gt h1)

theorem string_eq_of_data_eq (a b : String) (h : a.data = b.data) : a = b := by
  cases a
  cases b
  simp only at h
  rw [h]

theorem kwLe_antisymm_fst (p q : String × String)
    (hpq : ParamTools.kwLe p q = true) (hqp : ParamTools.kwLe q p = true) : p.1 = q.1 :=
  string_eq_of_data_eq _ _ (charListLe_antisymm _ _ hpq hqp)

/-- Two lists that are sorted with strictly increasing keys and are
permutations of each other are equal. -/
theorem pairwise_lt_perm_eq :
    ∀ (l1 l2 : List (String × String)),
      l1.Pairwise (fun p q => ParamTools.kwLe p q = true ∧ p.1 ≠ q.1) →
      l2.Pairwise (fun p q => ParamTools.kwLe p q = true ∧ p.1 ≠ q.1) →
      l1.Perm l2 → l1 = l2 := by
  intro l1
  induction l1 with
  | nil =>
      intro l2 _ _ hp
      exact hp.nil_eq
  | cons x t1 ih =>
      intro l2 h1 h2 hp
      cases l2 with
      | nil => exact absurd hp.symm (by simp)
      | cons y t2 =>
          by_cases hxy : x = y
          · subst hxy
            rw [ih t2 (List.pairwise_cons.mp h1).2 (List.pairwise_cons.mp h2).2 hp.cons_inv]
          · have hx2 : x ∈ t2 := by
              have hmem := hp.mem_iff.mp (List.mem_cons_self x t1)
              rcases List.mem_cons.mp hmem with h | h
              · exact absurd h hxy
              · exact h
            have hy1 : y ∈ t1 := by
              have hmem := hp.mem_iff.mpr (List.mem_cons_self y t2)
              rcases List.mem_cons.mp hmem with h | h
              · exact absurd h.symm hxy
              · exact h
            have hxy1 := (List.pairwise_cons.mp h1).1 y hy1
            have hyx2 := (List.pairwise_cons.mp h2).1 x hx2
            exact absurd (kwLe_antisymm_fst x y hxy1.1 hyx2.1) hxy1.2

/-- When the keyword names are distinct, the sorted keyword list has
strictly increasing keys. -/
theorem sortKws_pairwise_lt (L : List (String × String)) (h : (L.map Prod.fst).Nodup) :
    (ParamTools.sortKws L).Pairwise (fun p q => ParamTools.kwLe p q = true ∧ p.1 ≠ q.1) := by
  haveI : IsTotal (String × String) (fun a b => ParamTools.kwLe a b = true) :=
    ⟨fun a b => charListLe_total a.1.data b.1.data⟩
  haveI : IsTrans (String × String) (fun a b => ParamTools.kwLe a b = true) :=
    ⟨fun a b c => charListLe_trans a.1.data b.1.data c.1.data⟩
  have hs : (ParamTools.sortKws L).Pairwise (fun a b => ParamTools.kwLe a b = true) :=
    List.sorted_insertionSort _ L
  have hperm : (ParamTools.sortKws L).Perm L := List.perm_insertionSort _ L
  have hn : ((ParamTools.sortKws L).map Prod.fst).Nodup :=
    ((hperm.map Prod.fst).nodup_iff).mpr h
  have hne : (ParamTools.sortKws L).Pairwise (fun p q => p.1 ≠ q.1) :=
    List.pairwise_map.mp hn
  exact hs.and hne

/-- For keyword lists with distinct names, the validator's comparison of
sorted, default-stripped keyword dumps is exactly multiset equality of the
default-stripped keyword dumps. -/
theorem stripDefault_sortKws_eq_iff (L1 L2 : List (String × String))
    (h1 : (L1.map Prod.fst).Nodup) (h2 : (L2.map Prod.fst).Nodup) :
    (ParamTools.stripDefault (ParamTools.sortKws L1) =
      ParamTools.stripDefault (ParamTools.sortKws L2)) ↔
    (ParamTools.stripDefault L1).Perm (ParamTools.stripDefault L2) := by
  have p1 : (ParamTools.stripDefault (ParamTools.sortKws L1)).Perm
      (ParamTools.stripDefault L1) :=
    (List.perm_insertionSort _ L1).filter _
  have p2 : (ParamTools.stripDefault (ParamTools.sortKws L2)).Perm
      (ParamTools.stripDefault L2) :=
    (List.perm_insertionSort _ L2).filter _
  constructor
  · intro he
    exact p1.symm.trans (he ▸ p2)
  · intro hperm
    apply pairwise_lt_perm_eq
    · exact List.Pairwise.filter _ (sortKws_pairwise_lt L1 h1)
    · exact List.Pairwise.filter _ (sortKws_pairwise_lt L2 h2)
    · exact (p1.trans hperm).trans p2.symm

end Helper

/-! ## Claim theorems -/

/-- C3, counterexample.  The claim allows only a missing-versus-present
*single* trailing newline; `_segment_matches` accepts `"x = 1\n\n"` against
`"x = 1"`, which differ by two trailing newlines, so the claimed
equivalence fails on this pair. -/
theorem C3_counterexample :
    EditTools.segmentMatches "x = 1\n\n" "x = 1" = true ∧
      ¬ SpecSide.claimedMatchC3 "x = 1\n\n" "x = 1" := by
  constructor
  · rfl
  · intro hc
    rcases hc with h | h | h <;> exact absurd h (by decide)

/-- C3, amended.  The comparison of `_segment_matches` accepts a pair
exactly when, after normalizing `\r\n` to `\n`, the two strings agree up to
*any* number of trailing newlines on either side (`rstrip("\n")` removes
every trailing newline, not just one). -/
theorem C3_matches_iff_strip_all_trailing_newlines (segment before : String) :
    EditTools.segmentMatches segment before = true ↔
      EditTools.stripTrailingNl (EditTools.normalizeText segment) =
        EditTools.stripTrailingNl (EditTools.normalizeText before) := by
  unfold EditTools.segmentMatches
  by_cases h : EditTools.normalizeText segment = EditTools.normalizeText before
  · simp [h]
  · simp only [beq_iff_eq, h, if_false]
    by_cases h2 : EditTools.stripTrailingNl (EditTools.normalizeText segment) =
        EditTools.stripTrailingNl (EditTools.normalizeText before)
    · simp [h2]
    · simp [h2]

/-- C4, counterexample.  The precondition of the changes variants is plain
string equality, while the general edits variant's `_segment_matches`
normalizes: on the pair `("x = 1\n", "x = 1")` the changes variant rejects
and the general variant accepts, so the two predicates are not the same. -/
theorem C4_counterexample :
    ParamTools.changeSegmentMatches "x = 1\n" "x = 1" = false ∧
      EditTools.segmentMatches "x = 1\n" "x = 1" = true := ⟨rfl, rfl⟩

/-- C4, amended.  The changes variants' precondition (exact equality) is
strictly stronger than the general variant's normalized comparison: every
pair it accepts, `_segment_matches` also accepts (`C4_counterexample` shows
the converse fails). -/
theorem C4_exact_equality_refines_segment_matches (currentSeg before : String)
    (h : ParamTools.changeSegmentMatches currentSeg before = true) :
    EditTools.segmentMatches currentSeg before = true := by
  have hsb : currentSeg = before := by
    simpa [ParamTools.changeSegmentMatches] using h
  subst hsb
  simp [EditTools.segmentMatches]

/-- Witness for `C4_exact_equality_refines_segment_matches` at the concrete
pair `("x = 1\n", "x = 1\n")`. -/
theorem C4_exact_equality_refines_segment_matches_witness :
    ParamTools.changeSegmentMatches "x = 1\n" "x = 1\n" = true ∧
      EditTools.segmentMatches "x = 1\n" "x = 1\n" = true :=
  ⟨rfl, C4_exact_equality_refines_segment_matches "x = 1\n" "x = 1\n" rfl⟩

/-- C8, counterexample.  In a file whose first class `A` does not derive
from `IStrategy` while the later class `B` does, attribute extraction
(`attr_tools.py _extract`) still scans class `A`'s body — it returns the
`stoploss` of `A` (line 2) and ignores `B`'s — even though method lookup
(`edit_tools.py _find_strategy_class`) prefers `B`. -/
theorem C8_counterexample :
    AttrTools.extract Fx.modC8 Fx.srcC8 =
      [{ name := "stoploss", line := 2, endLine := 2, value := some (.float "0.05"),
         before := "    stoploss = 0.05\n" }] ∧
      (EditTools.findStrategyClass (EditTools.buildIndex Fx.modC8 Fx.srcC8)).map
        (fun c => c.name) = some "B" := ⟨rfl, rfl⟩

/-- C8, amended.  Method lookup's primary class (`edit_tools.py`) is the
first class whose bases contain `IStrategy`, falling back to the first
class; attribute extraction (`attr_tools.py`) scans the first class of the
file regardless of its bases. -/
theorem C8_primary_class_rules :
    (∀ index : EditTools.SourceIndex,
      EditTools.findStrategyClass index =
        (match index.classes.find? (fun c => c.bases.contains "IStrategy") with
         | some c => some c
         | none => index.classes.head?)) ∧
    (∀ body : List (Nat × Nat × PySrc.PStmt),
      AttrTools.findStrategyClass body =
        body.find? (fun t => SpecSide.isClassDefStmt t.2.2)) :=
  ⟨fun index => Helper.findStrategyClassAux_eq index.classes index.classes,
   Helper.attrFindStrategyClass_eq⟩

/-- C9, counterexample.  For a module whose first statement is `x = 1`
followed by `import os`, there is no docstring and no leading import run,
so the claim's formula yields 0; the code's scan skips the leading
non-import statement and returns the import's end line 2. -/
theorem C9_counterexample :
    EditTools.afterImportsInsert Fx.modC9 = 2 ∧
      SpecSide.afterImportsClaim Fx.modC9 = 0 ∧
      EditTools.docstringEnd Fx.modC9 = 0 ∧
      SpecSide.leadingImportRunEnd Fx.modC9.body = 0 := ⟨rfl, rfl, rfl, rfl⟩

/-- C9, amended.  `after_imports` resolves to the maximum of the docstring
end line and the end line of the *first contiguous* import block — the
block need not be leading, because statements before the first import are
skipped — and the anchor resolution never fails. -/
theorem C9_after_imports_first_import_block :
    (∀ tree : PySrc.PModule,
      EditTools.afterImportsInsert tree =
        max (EditTools.docstringEnd tree) (SpecSide.firstImportBlockEnd tree.body)) ∧
    (∀ (parse : PySrc.ParseFn) (index : EditTools.SourceIndex) (lines : List String),
      ∃ r, EditTools.resolveAnchor parse { kind := "after_imports" } index lines = .ok r) := by
  constructor
  · intro tree
    unfold EditTools.afterImportsInsert
    rw [Helper.importScan_zero_eq]
  · intro parse index lines
    exact ⟨_, rfl⟩

/-- C1, counterexample.  The general edits applier (`edit_tools.py
_apply_edits`) successfully applies a `Replace` edit on the `param` target
`x` whose after-text changes `space="buy"` to `space="sell"`, a pair the
Safety Validator rejects — so the validator is not run there and the
applied patch alters the program beyond a single default value. -/
theorem C1_counterexample :
    EditTools.applyEdits Fx.parseA Fx.srcA [Fx.editA] =
        .ok (Fx.afterA, [.replace { kind := "param", name := "x" } 1 1]) ∧
      ParamTools.parseStatement Fx.parseA Fx.srcA = .ok Fx.stmtBuy ∧
      ParamTools.parseStatement Fx.parseA Fx.afterA = .ok Fx.stmtSell ∧
      ParamTools.validateDefaultOnly Fx.stmtBuy Fx.stmtSell =
        .error "Only the default= keyword may change" ∧
      Fx.afterA ≠ Fx.srcA := ⟨rfl, rfl, rfl, rfl, by decide⟩

/-- C1, amended.  The safety validator runs in the attribute/parameter
*changes* variants, not in the general edits applier: whenever
`param_tools.py cmd_apply` (resp. `attr_tools.py cmd_apply`) succeeds,
every change in the request parsed as a single statement on both sides and
passed `_validate_default_only` (resp. `_validate_literal_change`) before
its splice. -/
theorem C1_validator_only_in_changes_variants :
    (∀ (parse : PySrc.ParseFn) (src : String) (changes : List ParamTools.Change) (out : String),
       ParamTools.applyChanges parse src changes = .ok out →
       ∀ ch ∈ changes, ∃ b a, ParamTools.parseStatement parse ch.before = .ok b ∧
         ParamTools.parseStatement parse ch.after = .ok a ∧
         ParamTools.validateDefaultOnly b a = .ok ()) ∧
    (∀ (parse : PySrc.ParseFn) (src : String) (changes : List ParamTools.Change) (out : String),
       AttrTools.applyChanges parse src changes = .ok out →
       ∀ ch ∈ changes, ∃ b a, ParamTools.parseStatement parse ch.before = .ok b ∧
         ParamTools.parseStatement parse ch.after = .ok a ∧
         AttrTools.validateLiteralChange b a = .ok ()) := by
  constructor
  · intro parse src changes out h ch hch
    unfold ParamTools.applyChanges at h
    cases hp : parse src with
    | error e =>
        rw [hp] at h
        cases h
    | ok tree =>
        rw [hp] at h
        simp only at h
        cases hl : ParamTools.applyChangesLoop parse (EditTools.extractAssignments tree src)
            (PySrc.splitlinesKeepends src) changes with
        | error e =>
            rw [hl] at h
            cases h
        | ok lines => exact Helper.paramLoop_validates parse _ changes _ lines hl ch hch
  · intro parse src changes out h ch hch
    unfold AttrTools.applyChanges at h
    cases hp : parse src with
    | error e =>
        rw [hp] at h
        cases h
    | ok tree =>
        rw [hp] at h
        simp only at h
        cases hl : AttrTools.applyChangesLoop parse (AttrTools.extract tree src)
            (PySrc.splitlinesKeepends src) changes with
        | error e =>
            rw [hl] at h
            cases h
        | ok lines => exact Helper.attrLoop_validates parse _ changes _ lines hl ch hch

/-- Witness for `C1_validator_only_in_changes_variants`: a concrete
successful default-only change through the param changes variant. -/
theorem C1_validator_only_in_changes_variants_witness :
    ParamTools.applyChanges Fx.parseA Fx.srcA [Fx.chDefaultOnly] = .ok Fx.afterOk ∧
      (∀ ch ∈ [Fx.chDefaultOnly], ∃ b a,
        ParamTools.parseStatement Fx.parseA ch.before = .ok b ∧
        ParamTools.parseStatement Fx.parseA ch.after = .ok a ∧
        ParamTools.validateDefaultOnly b a = .ok ()) :=
  ⟨rfl, C1_validator_only_in_changes_variants.1 Fx.parseA Fx.srcA [Fx.chDefaultOnly]
    Fx.afterOk rfl⟩

/-- C2.  In all three apply variants the file write happens only after
every edit succeeded, so a failing request leaves the on-disk content
exactly as it was; and a `Replace` edit whose declared before-text fails
the precondition comparison makes the whole request fail with the
`before mismatch` error. -/
theorem C2_atomic_failure_no_write :
    (∀ (parse : PySrc.ParseFn) (src : String) (edits : List EditTools.EditReq) (dryRun : Bool)
       (err : String), EditTools.applyEdits parse src edits = .error err →
       EditTools.cmdApplyDisk parse src edits dryRun = src) ∧
    (∀ (parse : PySrc.ParseFn) (src : String) (changes : List ParamTools.Change) (err : String),
       ParamTools.applyChanges parse src changes = .error err →
       ParamTools.paramDiskAfter parse src changes = src) ∧
    (∀ (parse : PySrc.ParseFn) (src : String) (changes : List ParamTools.Change) (err : String),
       AttrTools.applyChanges parse src changes = .error err →
       AttrTools.attrDiskAfter parse src changes = src) ∧
    (∀ (parse : PySrc.ParseFn) (src : String) (edit : EditTools.EditReq)
       (rest : List EditTools.EditReq) (target : EditTools.TargetReq)
       (before after : String) (tree : PySrc.PModule) (start stop : Nat)
       (segment label : String),
       PySrc.pyStrip edit.kind = "replace" →
       edit.target = some target →
       edit.before = some before →
       edit.after = some after →
       parse src = .ok tree →
       EditTools.resolveReplaceTarget target (EditTools.buildIndex tree src)
         (PySrc.splitlinesKeepends src) = .ok (start, stop, segment, label) →
       EditTools.segmentMatches segment before = false →
       EditTools.applyEdits parse src (edit :: rest) =
         .error ("before mismatch for " ++ label)) := by
  refine ⟨?_, ?_, ?_, ?_⟩
  · intro parse src edits dryRun err h
    unfold EditTools.cmdApplyDisk
    rw [h]
  · intro parse src changes err h
    unfold ParamTools.paramDiskAfter
    rw [h]
  · intro parse src changes err h
    unfold AttrTools.attrDiskAfter
    rw [h]
  · intro parse src edit rest target before after tree start stop segment label
      hkind htarget hbefore hafter hparse hresolve hmatch
    unfold EditTools.applyEdits
    rw [EditTools.applyEditsLoop]
    rw [PySrc.joinLines_splitlinesKeepends, hparse]
    simp only [hkind, htarget, hbefore, hafter, hresolve, hmatch]
    simp

/-- Witness for `C2_atomic_failure_no_write`: a concrete mismatching
replace edit fails with the precondition error and the disk content
(`cmdApplyDisk`) is the original source. -/
theorem C2_atomic_failure_no_write_witness :
    EditTools.applyEdits Fx.parseA Fx.srcA [Fx.editMismatch] =
        .error "before mismatch for param x" ∧
      EditTools.cmdApplyDisk Fx.parseA Fx.srcA [Fx.editMismatch] false = Fx.srcA := by
  have herr := C2_atomic_failure_no_write.2.2.2 Fx.parseA Fx.srcA Fx.editMismatch []
    { kind := "param", name := "x" } "y = 2\n" Fx.afterA Fx.modBuy 1 1 Fx.srcA "param x"
    rfl rfl rfl rfl rfl rfl rfl
  exact ⟨herr, C2_atomic_failure_no_write.1 Fx.parseA Fx.srcA [Fx.editMismatch] false _ herr⟩

/-- C5, counterexample.  In the changes variant the index is computed once
from the original text: after a first change grows parameter `a` from one
line to two, the second change on `b` resolves to `b`'s *original* line,
reads the wrong segment and fails, while the claim-side re-indexing
variant succeeds on the same request. -/
theorem C5_counterexample :
    ParamTools.applyChanges Fx.parseP Fx.srcP [Fx.chP1, Fx.chP2] =
        .error "before mismatch for b" ∧
      SpecSide.applyChangesReindexed Fx.parseP Fx.srcP [Fx.chP1, Fx.chP2] =
        .ok Fx.srcPFinal := ⟨rfl, rfl⟩

/-- C5, amended.  Only the general edits variant re-parses and re-indexes
before each edit: applying an `after_imports` insert and then a
`module_end` insert to a file with a docstring and three imports places
the first insertion right after the import block (line 5) and the second
at the end line shifted by the first insertion (line 7). -/
theorem C5_general_variant_reindexes :
    EditTools.applyEdits Fx.parseD Fx.srcD [Fx.insertAfterImports, Fx.insertModuleEnd] =
      .ok (Fx.srcDFinal,
        [.insert { kind := "after_imports" } 5 "after imports",
         .insert { kind := "module_end" } 7 "end of module"]) := rfl

/-- C6.  For single-name assignments to calls, `_validate_default_only`
accepts exactly when the names coincide, both values are parameter
constructor calls, callee name and positional-argument serializations
coincide, and the named keyword-argument sets (as `(name, dump)` multisets)
coincide except for the value of `default` — assuming, as Python syntax
guarantees for parsed calls, that each call's keyword names are distinct. -/
theorem C6_param_validator_iff (b a : PySrc.PStmt) (bn an : String) (bc ac : PySrc.PExpr)
    (hb : ParamTools.normalizeParamAssign b = .ok (bn, bc))
    (ha : ParamTools.normalizeParamAssign a = .ok (an, ac))
    (hnb : (ParamTools.namedKeys bc).Nodup)
    (hna : (ParamTools.namedKeys ac).Nodup) :
    ParamTools.validateDefaultOnly b a = .ok () ↔
      (bn = an ∧ EditTools.isParamCall bc = true ∧ EditTools.isParamCall ac = true ∧
       EditTools.funcName (EditTools.callFunc bc) = EditTools.funcName (EditTools.callFunc ac) ∧
       (EditTools.callArgs bc).map PySrc.pdump = (EditTools.callArgs ac).map PySrc.pdump ∧
       (ParamTools.stripDefault (ParamTools.namedKwDumps (EditTools.callKeywords bc))).Perm
         (ParamTools.stripDefault (ParamTools.namedKwDumps (EditTools.callKeywords ac)))) := by
  unfold ParamTools.validateDefaultOnly
  rw [hb, ha]
  simp only
  by_cases h1 : bn ≠ an
  · rw [if_pos h1]
    constructor
    · intro h
      cases h
    · rintro ⟨hEq, -⟩
      exact absurd hEq h1
  · rw [if_neg h1]
    push_neg at h1
    by_cases h2 : (!(EditTools.isParamCall bc) || !(EditTools.isParamCall ac)) = true
    · rw [if_pos h2]
      constructor
      · intro h
        cases h
      · rintro ⟨-, hpb, hpa, -⟩
        simp [hpb, hpa] at h2
    · rw [if_neg h2]
      simp only [Bool.or_eq_true, Bool.not_eq_true'] at h2
      push_neg at h2
      obtain ⟨hpb, hpa⟩ := h2
      rw [ParamTools.callSignature, ParamTools.callSignature]
      simp only
      by_cases h3 : EditTools.funcName (EditTools.callFunc bc) ≠
            EditTools.funcName (EditTools.callFunc ac) ∨
          (EditTools.callArgs bc).map PySrc.pdump ≠ (EditTools.callArgs ac).map PySrc.pdump
      · rw [if_pos (by simpa using h3)]
        constructor
        · intro h
          cases h
        · rintro ⟨-, -, -, hfn, hargs, -⟩
          rcases h3 with h3 | h3
          · exact absurd hfn h3
          · exact absurd hargs h3
      · rw [if_neg (by simpa using h3)]
        push_neg at h3
        obtain ⟨hfn, hargs⟩ := h3
        by_cases h4 : ParamTools.stripDefault
              (ParamTools.sortKws (ParamTools.namedKwDumps (EditTools.callKeywords bc))) ≠
            ParamTools.stripDefault
              (ParamTools.sortKws (ParamTools.namedKwDumps (EditTools.callKeywords ac)))
        · rw [if_pos h4]
          constructor
          · intro h
            cases h
          · rintro ⟨-, -, -, -, -, hperm⟩
            exact absurd ((Helper.stripDefault_sortKws_eq_iff _ _ hnb hna).mpr hperm) h4
        · rw [if_neg h4]
          push_neg at h4
          constructor
          · intro _
            refine ⟨h1, by simpa using hpb, by simpa using hpa, hfn, hargs, ?_⟩
            exact (Helper.stripDefault_sortKws_eq_iff _ _ hnb hna).mp h4
          · intro _
            rfl

/-- Witness for `C6_param_validator_iff`: the default-only change
`b = IntParameter(4, 5, default=6)` → `default=7` is accepted (via the
backward direction), and the space change of `x = IntParameter(1, 2,
default=3, space="buy")` → `space="sell"` is rejected (via the forward
direction). -/
theorem C6_param_validator_iff_witness :
    ParamTools.validateDefaultOnly Fx.stmtP2 Fx.stmtP2v7 = .ok () ∧
      ParamTools.validateDefaultOnly Fx.stmtBuy Fx.stmtSell ≠ .ok () :=
  ⟨(C6_param_validator_iff Fx.stmtP2 Fx.stmtP2v7 "b" "b"
      (.call (.name "IntParameter") [.const (.int 4), .const (.int 5)]
        [(some "default", .const (.int 6))])
      (.call (.name "IntParameter") [.const (.int 4), .const (.int 5)]
        [(some "default", .const (.int 7))])
      rfl rfl (by decide) (by decide)).mpr
    ⟨rfl, rfl, rfl, rfl, rfl, by decide⟩,
   fun h => by
     have hc := (C6_param_validator_iff Fx.stmtBuy Fx.stmtSell "x" "x" Fx.callBuy Fx.callSell
       rfl rfl (by decide) (by decide)).mp h
     exact absurd hc.2.2.2.2.2 (by decide)⟩

/-- C7.  `_validate_literal_change` accepts only when both statements are
single-name assignments to the identical name, that name is whitelisted,
and both assigned values are `ast.Constant` literals; and the concrete
change `stoploss = -0.05` → `stoploss = some_call()` fails with the
unsafe-edit error. -/
theorem C7_attr_validator_necessary_conditions :
    (∀ (b a : PySrc.PStmt), AttrTools.validateLiteralChange b a = .ok () →
      ∃ n bv av, AttrTools.normalizeAssignment b = .ok (n, bv) ∧
        AttrTools.normalizeAssignment a = .ok (n, av) ∧
        AttrTools.allowedAttrs.contains n = true ∧
        AttrTools.isConstExpr bv = true ∧ AttrTools.isConstExpr av = true) ∧
    AttrTools.validateLiteralChange Fx.stmtStopNeg05 Fx.stmtStopCall =
      .error "Only literal (constant) assignments are allowed" := by
  constructor
  · intro b a h
    unfold AttrTools.validateLiteralChange at h
    cases hb : AttrTools.normalizeAssignment b with
    | error e =>
        rw [hb] at h
        cases h
    | ok pb =>
        rw [hb] at h
        obtain ⟨bn, bv⟩ := pb
        simp only at h
        cases ha : AttrTools.normalizeAssignment a with
        | error e =>
            rw [ha] at h
            cases h
        | ok pa =>
            rw [ha] at h
            obtain ⟨an, av⟩ := pa
            simp only at h
            by_cases hn : bn ≠ an
            · rw [if_pos hn] at h
              cases h
            · rw [if_neg hn] at h
              push_neg at hn
              subst hn
              cases hw : AttrTools.allowedAttrs.contains bn with
              | false =>
                  have hw2 : ¬ bn ∈ AttrTools.allowedAttrs := by simpa using hw
                  simp [hw2] at h
              | true =>
                  have hw2 : bn ∈ AttrTools.allowedAttrs := by simpa using hw
                  cases hbc : AttrTools.isConstExpr bv with
                  | false => simp [hw2, hbc] at h
                  | true =>
                      cases hac : AttrTools.isConstExpr av with
                      | false => simp [hw2, hbc, hac] at h
                      | true => exact ⟨bn, bv, av, rfl, rfl, hw, hbc, hac⟩
  · rfl

/-- Witness for `C7_attr_validator_necessary_conditions`: the accepted
literal change `stoploss = 0.05` → `stoploss = 0.07`. -/
theorem C7_attr_validator_necessary_conditions_witness :
    AttrTools.validateLiteralChange Fx.stmtStop05 Fx.stmtStop07 = .ok () ∧
      (∃ n bv av, AttrTools.normalizeAssignment Fx.stmtStop05 = .ok (n, bv) ∧
        AttrTools.normalizeAssignment Fx.stmtStop07 = .ok (n, av) ∧
        AttrTools.allowedAttrs.contains n = true ∧
        AttrTools.isConstExpr bv = true ∧ AttrTools.isConstExpr av = true) :=
  ⟨rfl, C7_attr_validator_necessary_conditions.1 Fx.stmtStop05 Fx.stmtStop07 rfl⟩

/-- C10.  A whitelisted-attribute change whose before (or after) assigned
value is a unary-operation node — which is what a negative numeric literal
written with a leading minus parses to — is rejected by
`_validate_literal_change` with the unsafe-edit error, whatever the other
side's value is. -/
theorem C10_unary_minus_value_rejected :
    (∀ (b a : PySrc.PStmt) (n op : String) (x av : PySrc.PExpr),
       AttrTools.normalizeAssignment b = .ok (n, PySrc.PExpr.unaryOp op x) →
       AttrTools.normalizeAssignment a = .ok (n, av) →
       AttrTools.allowedAttrs.contains n = true →
       AttrTools.validateLiteralChange b a =
         .error "Only literal (constant) assignments are allowed") ∧
    (∀ (b a : PySrc.PStmt) (n op : String) (bv x : PySrc.PExpr),
       AttrTools.normalizeAssignment b = .ok (n, bv) →
       AttrTools.normalizeAssignment a = .ok (n, PySrc.PExpr.unaryOp op x) →
       AttrTools.allowedAttrs.contains n = true →
       AttrTools.validateLiteralChange b a =
         .error "Only literal (constant) assignments are allowed") := by
  constructor
  · intro b a n op x av hb ha hw
    unfold AttrTools.validateLiteralChange
    rw [hb, ha]
    simp only
    rw [if_neg (by simp), if_neg (by rw [hw]; simp)]
    rw [if_pos (by simp [AttrTools.isConstExpr])]
  · intro b a n op bv x hb ha hw
    unfold AttrTools.validateLiteralChange
    rw [hb, ha]
    simp only
    rw [if_neg (by simp), if_neg (by rw [hw]; simp)]
    rw [if_pos (by simp [AttrTools.isConstExpr])]

/-- Witness for `C10_unary_minus_value_rejected`: changing
`stoploss = -0.05` to `stoploss = -0.06` is rejected. -/
theorem C10_unary_minus_value_rejected_witness :
    AttrTools.validateLiteralChange Fx.stmtStopNeg05 Fx.stmtStopNeg06 =
      .error "Only literal (constant) assignments are allowed" :=
  C10_unary_minus_value_rejected.1 Fx.stmtStopNeg05 Fx.stmtStopNeg06 "stoploss" "USub"
    (.const (.float "0.05")) (.unaryOp "USub" (.const (.float "0.06"))) rfl rfl rfl
